import Mathlib

/-!
# Verification of `ory/redux-saga-fetch` (`src/index.js`)

A shallow embedding of the request-lifecycle orchestrator of
`redux-saga-fetch`: the status-table selectors, the lifecycle reducer
handlers produced by `wrapRootReducer`, the group-coordination blocker
computation (`fetchingActionsInGroup`), the request worker
(`createDefaultWorker`), the registry constructor (`SagaFetcher`), and a
small-step operational model of the saga runtime (dispatch → reducer →
pending `take`s) sufficient to settle the group-serialization claims.

JavaScript values are modelled by the inductive type `JSVal`.  Objects are
association lists in property-insertion order (all keys appearing in this
development are non-numeric strings, for which JavaScript also uses
insertion order).  Reference equality of objects is not modelled: every
`===` comparison in the embedded code is between primitives.
-/

namespace ReduxSagaFetch

/-- A JavaScript value: `undefined`, `null`, booleans, numbers, strings,
objects (association lists of fields in insertion order), arrays, and
opaque function values (identified by a tag, enough to model
`typeof f === 'function'`). -/
inductive JSVal where
  | undefined : JSVal
  | null : JSVal
  | bool : Bool → JSVal
  | num : Int → JSVal
  | str : String → JSVal
  | obj : List (String × JSVal) → JSVal
  | arr : List JSVal → JSVal
  | fn : Nat → JSVal

namespace JSVal

/-- JavaScript truthiness: `undefined`, `null`, `false`, `0`, and `""` are
falsy; every object, array and function is truthy. -/
def truthy : JSVal → Bool
  | undefined => false
  | null => false
  | bool b => b
  | num n => n != 0
  | str s => s != ""
  | obj _ => true
  | arr _ => true
  | fn _ => true

/-- Decode a canonical array index: `"0"`, `"1"`, … -/
def decodeIndex (s : String) : Option Nat :=
  match s.toNat? with
  | some n => if toString n = s then some n else none
  | none => none

/-- Property access `v[k]`, for the value positions this code reads.
Missing properties are `undefined`.  (In JavaScript, property access on
`undefined`/`null` throws; in this code every such access is either
guarded by a truthiness check in `pathOr` or covered by a well-formedness
hypothesis of the theorems below.) -/
def getField : JSVal → String → JSVal
  | obj fields, k =>
    match fields.find? (fun p => p.1 = k) with
    | some p => p.2
    | none => undefined
  | arr elems, k =>
    if k = "length" then num elems.length
    else
      match decodeIndex k with
      | some n => (elems.get? n).getD undefined
      | none => undefined
  | str s, k =>
    if k = "length" then num s.length
    else
      match decodeIndex k with
      | some n =>
        match s.data.get? n with
        | some c => str (String.mk [c])
        | none => undefined
      | none => undefined
  | _, _ => undefined

/-- `Object.keys`, for the values this code enumerates (objects, arrays,
strings; primitives give `[]`). -/
def objKeys : JSVal → List String
  | obj fields => fields.map Prod.fst
  | arr elems => (List.range elems.length).map toString
  | str s => (List.range s.length).map toString
  | _ => []

/-- `typeof`. -/
def jsTypeof : JSVal → String
  | undefined => "undefined"
  | null => "object"
  | bool _ => "boolean"
  | num _ => "number"
  | str _ => "string"
  | obj _ => "object"
  | arr _ => "object"
  | fn _ => "function"

/-- Strict equality `===` between the primitive values compared in this
code.  Objects, arrays and functions compare by reference in JavaScript;
no comparison in the embedded code involves them, and the model returns
`false` there. -/
def jsStrictEq : JSVal → JSVal → Bool
  | undefined, undefined => true
  | null, null => true
  | bool a, bool b => a == b
  | num a, num b => a == b
  | str a, str b => a == b
  | _, _ => false

/-- `v === s` for a string literal `s`: true exactly when `v` is that
string. -/
def strictEqStr (v : JSVal) (s : String) : Bool :=
  jsStrictEq v (str s)

end JSVal

open JSVal

/-- `const pathOr = (p, o, d) => p.reduce((xs, x) => (xs && xs[x] ? xs[x] : d), o)`
(src/index.js:30–31).  Note the quirk: a *falsy* value found along the
path (for example a payload of `0` or `false`) is replaced by the default. -/
def pathOr (p : List String) (o : JSVal) (d : JSVal) : JSVal :=
  p.foldl (fun xs x => if truthy xs && truthy (getField xs x) then getField xs x else d) o

def STATE_FETCHING : String := "FETCHING"
def STATE_SUCCESS : String := "SUCCESS"
def STATE_FAILURE : String := "FAILURE"

/-- `isFetching` (src/index.js:33–34). -/
def isFetching (key : String) (state : JSVal) : Bool :=
  strictEqStr (pathOr ["reduxSagaFetch", key, "status"] state .null) STATE_FETCHING

/-- `isFetchFailure` (src/index.js:35–36). -/
def isFetchFailure (key : String) (state : JSVal) : Bool :=
  strictEqStr (pathOr ["reduxSagaFetch", key, "status"] state .null) STATE_FAILURE

/-- `isFetchSuccess` (src/index.js:37–38). -/
def isFetchSuccess (key : String) (state : JSVal) : Bool :=
  strictEqStr (pathOr ["reduxSagaFetch", key, "status"] state .null) STATE_SUCCESS

/-- `selectPayload` (src/index.js:39–40). -/
def selectPayload (key : String) (state : JSVal) : JSVal :=
  pathOr ["reduxSagaFetch", key, "payload"] state .undefined

/-- `selectErrorPayload` (src/index.js:41–42). -/
def selectErrorPayload (key : String) (state : JSVal) : JSVal :=
  pathOr ["reduxSagaFetch", key, "errorPayload"] state .undefined

/-- `hasFetchFailures` (src/index.js:43–48): `Boolean(Object.keys(states)
.find(key => states[key].status === STATE_FAILURE))`.  `find` returns the
first matching *key string*, and `Boolean("")` is `false`. -/
def hasFetchFailures (state : JSVal) : Bool :=
  let states := pathOr ["reduxSagaFetch"] state (.obj [])
  match (objKeys states).find? (fun k => strictEqStr (getField (getField states k) "status") STATE_FAILURE) with
  | some k => truthy (.str k)
  | none => false

/-- `mapStates` (src/index.js:51–60): filter the slice's keys by status,
then map. -/
def mapStates (state : JSVal) (status : String) (mapFunc : JSVal → String → JSVal) : List JSVal :=
  let states := pathOr ["reduxSagaFetch"] state (.obj [])
  ((objKeys states).filter
    (fun k => strictEqStr (getField (getField states k) "status") status)).map
    (fun k => mapFunc (getField states k) k)

/-- `selectErrorPayloads` (src/index.js:62–66). -/
def selectErrorPayloads (state : JSVal) : List JSVal :=
  mapStates state STATE_FAILURE (fun current key => .obj [("key", .str key), ("error", getField current "errorPayload")])

/-- `fetchingActionsInGroup` (src/index.js:68–80): for a truthy `group`,
the keys currently `FETCHING` whose registered descriptor has the same
group, minus falsy entries and the requesting key itself; `[]` for a
falsy (absent or empty) group. -/
def fetchingActionsInGroup (state : JSVal) (registry : JSVal) (group : JSVal) (key : String) : List JSVal :=
  if truthy group then
    (mapStates state STATE_FETCHING
      (fun _current k => if jsStrictEq (getField (getField registry k) "group") group then .str k else .undefined)).filter
      (fun k => truthy k && !(jsStrictEq k (.str key)))
  else []

/-! ## Action types (src/index.js:234–251)

`createRequestAction(key)` and friends produce action creators whose
`toString()` is the action type `REDUX_SAGA_FETCH_${key.toUpperCase()}_KIND`.
All keys considered here are ASCII, where mapping `Char.toUpper` over the
characters agrees with JavaScript's `toUpperCase`. -/

def jsToUpperCase (s : String) : String := String.mk (s.data.map Char.toUpper)

def requestType (key : String) : String :=
  "REDUX_SAGA_FETCH_" ++ jsToUpperCase key ++ "_REQUEST"

def successType (key : String) : String :=
  "REDUX_SAGA_FETCH_" ++ jsToUpperCase key ++ "_SUCCESS"

def failureType (key : String) : String :=
  "REDUX_SAGA_FETCH_" ++ jsToUpperCase key ++ "_FAILURE"

/-- The string content of a `.str` value (the blocker lists built by
`fetchingActionsInGroup` contain only strings). -/
def asString : JSVal → String
  | .str s => s
  | _ => ""

/-- `getFinishedActions` (src/index.js:82–85): success types of the keys
followed by their failure types. -/
def getFinishedActions (keys : List JSVal) : List String :=
  keys.map (fun k => successType (asString k)) ++ keys.map (fun k => failureType (asString k))

/-! ## The lifecycle reducer handlers (src/index.js:166–206)

`wrapRootReducer` installs, per registered key, three handlers on the
`reduxSagaFetch` slice.  Each returns `{...state, [key]: {...}}`: the
spread keeps an existing key in place with a new value, otherwise the key
is appended.  The slice is always a plain object; we represent it by its
field list. -/

/-- `{...state, [key]: v}` on an object's field list. -/
def objSet (fields : List (String × JSVal)) (key : String) (v : JSVal) :
    List (String × JSVal) :=
  if fields.any (fun p => p.1 = key) then
    fields.map (fun p => if p.1 = key then (key, v) else p)
  else fields ++ [(key, v)]

/-- The entry written by the request handler (src/index.js:170–177). -/
def requestEntry : JSVal :=
  .obj [("status", .str STATE_FETCHING), ("payload", .undefined), ("errorPayload", .undefined)]

/-- The entry written by the success handler (src/index.js:178–188); it
reads `payload.response` from the action payload. -/
def successEntry (actionPayload : JSVal) : JSVal :=
  .obj [("status", .str STATE_SUCCESS), ("payload", getField actionPayload "response"),
        ("errorPayload", .undefined)]

/-- The entry written by the failure handler (src/index.js:189–199); it
reads `payload.error` from the action payload. -/
def failureEntry (actionPayload : JSVal) : JSVal :=
  .obj [("status", .str STATE_FAILURE), ("payload", .undefined),
        ("errorPayload", getField actionPayload "error")]

def requestHandler (key : String) (slice : List (String × JSVal)) :
    List (String × JSVal) :=
  objSet slice key requestEntry

def successHandler (key : String) (actionPayload : JSVal)
    (slice : List (String × JSVal)) : List (String × JSVal) :=
  objSet slice key (successEntry actionPayload)

def failureHandler (key : String) (actionPayload : JSVal)
    (slice : List (String × JSVal)) : List (String × JSVal) :=
  objSet slice key (failureEntry actionPayload)

/-- The full state as selectors see it: the slice mounted at
`reduxSagaFetch` (as produced by `wrapRootReducer`'s combined reducer). -/
def mkState (slice : List (String × JSVal)) : JSVal :=
  .obj [("reduxSagaFetch", .obj slice)]

/-- Status of `key` in a slice (the `status` field of its entry,
`undefined` when absent). -/
def sliceStatus (slice : List (String × JSVal)) (key : String) : JSVal :=
  getField (getField (.obj slice) key) "status"

/-! ## The registry constructor (src/index.js:136–164, 227)

`new SagaFetcher(config)`: the default parameter replaces an absent or
`undefined` argument by `{}`; `typeof config !== 'object'` rejects
strings, numbers, booleans and functions (but *not* arrays or `null`,
whose `typeof` is `"object"`); then every entry goes through `add`, which
requires a callable `fetcher` and stores a copy `{...options}` of the
descriptor. -/

def addFn (reg : List (String × JSVal)) (key : String) (options : JSVal) :
    Except String (List (String × JSVal)) :=
  if jsTypeof (getField options "fetcher") = "function" then
    .ok (objSet reg key options)
  else
    .error ("Expected a function for key " ++ key ++ " but got "
      ++ jsTypeof (getField options "fetcher"))

def sagaFetcherCtor : JSVal → Except String (List (String × JSVal))
  | .undefined => .ok []
  | .null => .error "TypeError: Cannot convert undefined or null to object"
  | c =>
    if jsTypeof c = "object" then
      (objKeys c).foldlM (fun reg key => addFn reg key (getField c key)) []
    else
      .error ("Registry must be an object but got " ++ jsTypeof c)

/-! ## One cycle of the request worker (src/index.js:87–116)

The worker's single execution cycle, as a function of the states it
observes at its successive `select`s and of the fetcher's outcome.  The
result type `Except JSVal CycleOutcome` makes error containment explicit:
an uncaught exception would surface as `.error`, and the `try/catch`
converts any such error into the emitted failure action. -/

inductive CycleOutcome where
  | suspended (blockers : List JSVal)
  | completed (actionType : String) (actionPayload : JSVal)

/-- The `while (blockedInGroup.length > 0)` loop: each iteration takes a
finished action, then recomputes the blockers against the next observed
state; when the observations are exhausted the worker is still suspended
in `take`. -/
def workerLoop (registry : JSVal) (group : JSVal) (key : String) (input : JSVal)
    (outcome : Except JSVal JSVal) :
    List JSVal → List JSVal → Except JSVal CycleOutcome
  | blockers, laterStates =>
    if blockers.isEmpty then
      match outcome with
      | .ok v =>
        .ok (.completed (successType key) (.obj [("response", v), ("request", input)]))
      | .error e => .error e
    else
      match laterStates with
      | [] => .ok (.suspended blockers)
      | s :: rest =>
        workerLoop registry group key input outcome
          (fetchingActionsInGroup s registry group key) rest

/-- The body of the `try` block. -/
def runWorkerBody (registry : JSVal) (key : String) (input : JSVal)
    (s0 : JSVal) (laterStates : List JSVal) (outcome : Except JSVal JSVal) :
    Except JSVal CycleOutcome :=
  let group := getField (getField registry key) "group"
  workerLoop registry group key input outcome
    (fetchingActionsInGroup s0 registry group key) laterStates

/-- The whole cycle: the `catch` turns any error into a put of the failure
action carrying the error and the original request input. -/
def runWorkerCycle (registry : JSVal) (key : String) (input : JSVal)
    (s0 : JSVal) (laterStates : List JSVal) (outcome : Except JSVal JSVal) :
    Except JSVal CycleOutcome :=
  match runWorkerBody registry key input s0 laterStates outcome with
  | .ok r => .ok r
  | .error e =>
    .ok (.completed (failureType key) (.obj [("error", e), ("request", input)]))

/-! ## Small-step operational model of the saga runtime

One watcher per registered key (`takeLatest`), one status-table slice
managed by the handlers above.  A dispatched action first runs the
reducer, then is offered to the pending `take`s (redux-saga's middleware
emits to the saga channel after `next(action)`); a worker resumed from its
group-wait only `select`s before either invoking its fetcher (phase
`running`) or re-entering `take` (phase `waiting`), so all workers resumed
by one action observe the same store state. -/

inductive Phase where
  | idle
  | waiting (input : JSVal) (blockers : List JSVal)
  | running (input : JSVal)

/-- A registry, as built by the constructor: field list of descriptors. -/
structure Model where
  regFields : List (String × JSVal)

def Model.keys (M : Model) : List String := M.regFields.map Prod.fst

def Model.registry (M : Model) : JSVal := .obj M.regFields

inductive HandlerKind where
  | request
  | success
  | failure

/-- Which of `key`'s three handlers (if any) is registered at `type`. -/
def handlerMatch (type : String) (k : String) : Option (String × HandlerKind) :=
  if type = requestType k then some (k, .request)
  else if type = successType k then some (k, .success)
  else if type = failureType k then some (k, .failure)
  else none

/-- The handler the `handlers` object holds at `type`: assignments are made
in registry-key order and later assignments overwrite, so the last match
wins. -/
def handlerFor (keys : List String) (type : String) : Option (String × HandlerKind) :=
  (keys.filterMap (handlerMatch type)).getLast?

def applyHandler (hk : String × HandlerKind) (actionPayload : JSVal)
    (slice : List (String × JSVal)) : List (String × JSVal) :=
  match hk.2 with
  | .request => requestHandler hk.1 slice
  | .success => successHandler hk.1 actionPayload slice
  | .failure => failureHandler hk.1 actionPayload slice

/-- `handleActions(handlers, {})`: apply the registered handler at the
action's type, or leave the slice unchanged. -/
def dispatchSlice (M : Model) (type : String) (actionPayload : JSVal)
    (slice : List (String × JSVal)) : List (String × JSVal) :=
  match handlerFor M.keys type with
  | some hk => applyHandler hk actionPayload slice
  | none => slice

structure Config where
  slice : List (String × JSVal)
  phases : List (String × Phase)

/-- A worker (re)entering its cycle: compute the blockers from the current
store state; proceed to the fetch when there are none, otherwise suspend
in `take` on the blockers' finished actions. -/
def wake (M : Model) (k : String) (input : JSVal)
    (slice : List (String × JSVal)) : Phase :=
  let group := getField (getField M.registry k) "group"
  let b := fetchingActionsInGroup (mkState slice) M.registry group k
  if b.isEmpty then .running input else .waiting input b

/-- Offer a dispatched action to one worker: `takeLatest` starts a fresh
cycle when the type is the worker's request type (cancelling whatever it
was doing); a worker waiting in its group-`take` whose pattern contains
the type resumes and recomputes its blockers; otherwise nothing. -/
def notifyPhase (M : Model) (type : String) (actionPayload : JSVal)
    (slice : List (String × JSVal)) (j : String) (p : Phase) : Phase :=
  if requestType j = type then wake M j actionPayload slice
  else
    match p with
    | .waiting input bs =>
      if type ∈ getFinishedActions bs then wake M j input slice else p
    | p => p

def notifyAll (M : Model) (type : String) (actionPayload : JSVal)
    (slice : List (String × JSVal)) (phases : List (String × Phase)) :
    List (String × Phase) :=
  phases.map (fun jp => (jp.1, notifyPhase M type actionPayload slice jp.1 jp.2))

inductive Event where
  | start (k : String) (input : JSVal)
  | finish (k : String) (outcome : Except JSVal JSVal)

def lookupPhase (c : Config) (k : String) : Option Phase :=
  (c.phases.find? (fun p => p.1 = k)).map Prod.snd

/-- One step: `start k input` dispatches `k`'s request action (enabled for
registered keys, which have watchers); `finish k outcome` is the
completion of the fetch of `k`'s current cycle (enabled when that cycle is
in its `call`), which puts the success or failure action. -/
def step (M : Model) (c : Config) : Event → Option Config
  | .start k input =>
    if k ∈ M.keys then
      let slice := dispatchSlice M (requestType k) input c.slice
      some ⟨slice, notifyAll M (requestType k) input slice c.phases⟩
    else none
  | .finish k outcome =>
    match lookupPhase c k with
    | some (.running input) =>
      let tp :=
        match outcome with
        | .ok v => (successType k, JSVal.obj [("response", v), ("request", input)])
        | .error e => (failureType k, JSVal.obj [("error", e), ("request", input)])
      let slice := dispatchSlice M tp.1 tp.2 c.slice
      let ph1 := c.phases.map (fun jp => (jp.1, if jp.1 = k then Phase.idle else jp.2))
      some ⟨slice, notifyAll M tp.1 tp.2 slice ph1⟩
    | _ => none

def initConfig (M : Model) : Config :=
  ⟨[], M.keys.map (fun k => (k, Phase.idle))⟩

def run (M : Model) (events : List Event) : Option Config :=
  events.foldlM (fun c e => step M c e) (initConfig M)

/-- The three lifecycle transitions, as data: used to quantify over
sequences of reducer applications. -/
inductive LifecycleStep where
  | request (key : String)
  | success (key : String) (actionPayload : JSVal)
  | failure (key : String) (actionPayload : JSVal)

def LifecycleStep.key : LifecycleStep → String
  | .request k => k
  | .success k _ => k
  | .failure k _ => k

def applyStep (st : LifecycleStep) (slice : List (String × JSVal)) :
    List (String × JSVal) :=
  match st with
  | .request k => requestHandler k slice
  | .success k p => successHandler k p slice
  | .failure k p => failureHandler k p slice

def applySteps (steps : List LifecycleStep) (slice : List (String × JSVal)) :
    List (String × JSVal) :=
  steps.foldl (fun s st => applyStep st s) slice

/-- Status-table states reachable from the empty initial slice by the
three lifecycle handlers. -/
inductive ReachableSlice : List (String × JSVal) → Prop where
  | init : ReachableSlice []
  | step (st : LifecycleStep) {s : List (String × JSVal)} :
      ReachableSlice s → ReachableSlice (applyStep st s)

/-! ## Basic lemmas: truthiness, strict equality, field access -/

@[simp] lemma truthy_undef : truthy .undefined = false := rfl

@[simp] lemma truthy_null : truthy .null = false := rfl

@[simp] lemma truthy_obj (f : List (String × JSVal)) : truthy (.obj f) = true := rfl

@[simp] lemma truthy_str (s : String) : truthy (.str s) = (s != "") := rfl

lemma strictEqStr_iff (v : JSVal) (s : String) : strictEqStr v s = true ↔ v = .str s := by
  cases v <;> simp [strictEqStr, jsStrictEq]

lemma jsStrictEq_str_iff (v : JSVal) (s : String) : jsStrictEq v (.str s) = true ↔ v = .str s :=
  strictEqStr_iff v s

lemma strictEqStr_undef (s : String) : strictEqStr .undefined s = false := rfl

lemma strictEqStr_null (s : String) : strictEqStr .null s = false := rfl

lemma getField_obj_nil (k : String) : getField (.obj []) k = .undefined := rfl

lemma getField_obj_cons (k₁ : String) (v : JSVal) (t : List (String × JSVal)) (k : String) :
    getField (.obj ((k₁, v) :: t)) k = if k₁ = k then v else getField (.obj t) k := by
  by_cases h : k₁ = k <;> simp [getField, List.find?, h]

lemma getField_undef (k : String) : getField .undefined k = .undefined := rfl

/-- A key with a non-`undefined`-behaving status entry is present. -/
lemma mem_of_sliceStatus_str (SF : List (String × JSVal)) (a s : String)
    (h : sliceStatus SF a = .str s) : a ∈ SF.map Prod.fst := by
  by_contra hmem
  have hfind : SF.find? (fun p => p.1 = a) = none := by
    apply List.find?_eq_none.mpr
    intro p hp
    simp only [decide_eq_true_eq]
    intro hpa
    exact hmem (hpa ▸ List.mem_map_of_mem Prod.fst hp)
  simp [sliceStatus, getField, hfind] at h

/-! ## Lemmas about `objSet` (the `{...state, [key]: v}` update) -/

lemma find?_map_update_self (fields : List (String × JSVal)) (k : String) (v : JSVal) :
    (fields.map (fun p => if p.1 = k then (k, v) else p)).find? (fun p => p.1 = k)
      = if fields.any (fun p => p.1 = k) then some (k, v) else none := by
  induction fields with
  | nil => simp
  | cons p t ih =>
    by_cases hp : p.1 = k
    · rw [List.map_cons, if_pos hp, List.find?_cons_of_pos _ (by simp)]
      have : (decide (p.1 = k)) = true := by simp [hp]
      rw [List.any_cons, this, Bool.true_or, if_pos rfl]
    · rw [List.map_cons, if_neg hp, List.find?_cons_of_neg _ (by simp [hp]), ih]
      have : (decide (p.1 = k)) = false := by simp [hp]
      rw [List.any_cons, this, Bool.false_or]

lemma find?_map_update_other (fields : List (String × JSVal)) (k : String) (v : JSVal)
    (j : String) (h : j ≠ k) :
    (fields.map (fun p => if p.1 = k then (k, v) else p)).find? (fun p => p.1 = j)
      = fields.find? (fun p => p.1 = j) := by
  have hkj : ¬ k = j := fun hkj => h hkj.symm
  induction fields with
  | nil => simp
  | cons p t ih =>
    by_cases hp : p.1 = k
    · have hpj : ¬ p.1 = j := fun hpj => hkj (hp ▸ hpj)
      rw [List.map_cons, if_pos hp, List.find?_cons_of_neg _ (by simp [hkj]),
        ih, List.find?_cons_of_neg _ (by simp [hpj])]
    · by_cases hpj : p.1 = j
      · rw [List.map_cons, if_neg hp, List.find?_cons_of_pos _ (by simp [hpj]),
          List.find?_cons_of_pos _ (by simp [hpj])]
      · rw [List.map_cons, if_neg hp, List.find?_cons_of_neg _ (by simp [hpj]),
          ih, List.find?_cons_of_neg _ (by simp [hpj])]

lemma find?_objSet_self (fields : List (String × JSVal)) (k : String) (v : JSVal) :
    (objSet fields k v).find? (fun p => p.1 = k) = some (k, v) := by
  unfold objSet
  by_cases h : fields.any (fun p => p.1 = k)
  · rw [if_pos h, find?_map_update_self, if_pos h]
  · rw [if_neg h, List.find?_append]
    have hnone : fields.find? (fun p => (p.1 = k : Bool)) = none := by
      apply List.find?_eq_none.mpr
      intro p hp
      simp only [decide_eq_true_eq]
      intro hpk
      exact h (List.any_eq_true.mpr ⟨p, hp, by simp [hpk]⟩)
    rw [hnone]
    simp [List.find?]

lemma find?_objSet_other (fields : List (String × JSVal)) (k : String) (v : JSVal)
    (j : String) (h : j ≠ k) :
    (objSet fields k v).find? (fun p => p.1 = j) = fields.find? (fun p => p.1 = j) := by
  have hkj : ¬ k = j := fun hkj => h hkj.symm
  unfold objSet
  by_cases hany : fields.any (fun p => p.1 = k)
  · rw [if_pos hany, find?_map_update_other _ _ _ _ h]
  · rw [if_neg hany, List.find?_append]
    cases hf : fields.find? (fun p => (p.1 = j : Bool)) with
    | some p => simp
    | none =>
      have hone : (List.find? (fun p => (p.1 = j : Bool)) [(k, v)]) = none := by
        simp [List.find?, hkj]
      simp [hone]

lemma getField_objSet_self (fields : List (String × JSVal)) (k : String) (v : JSVal) :
    getField (.obj (objSet fields k v)) k = v := by
  simp [getField, find?_objSet_self]

lemma getField_objSet_other (fields : List (String × JSVal)) (k : String) (v : JSVal)
    (j : String) (h : j ≠ k) :
    getField (.obj (objSet fields k v)) j = getField (.obj fields) j := by
  simp [getField, find?_objSet_other _ _ _ _ h]

lemma map_fst_update (fields : List (String × JSVal)) (k : String) (v : JSVal) :
    (fields.map (fun p => if p.1 = k then (k, v) else p)).map Prod.fst
      = fields.map Prod.fst := by
  induction fields with
  | nil => rfl
  | cons p t ih =>
    by_cases hp : p.1 = k
    · simp [hp, ih]
    · simp only [List.map_cons, if_neg hp, ih]

lemma map_fst_objSet (fields : List (String × JSVal)) (k : String) (v : JSVal) :
    (objSet fields k v).map Prod.fst
      = if fields.any (fun p => p.1 = k) then fields.map Prod.fst
        else fields.map Prod.fst ++ [k] := by
  unfold objSet
  by_cases h : fields.any (fun p => p.1 = k)
  · simp only [h, if_true, map_fst_update]
  · simp [h]

lemma mem_map_fst_objSet (fields : List (String × JSVal)) (k : String) (v : JSVal)
    (j : String) :
    j ∈ (objSet fields k v).map Prod.fst ↔ j ∈ fields.map Prod.fst ∨ j = k := by
  rw [map_fst_objSet]
  by_cases h : fields.any (fun p => p.1 = k)
  · simp only [h, if_true]
    constructor
    · exact Or.inl
    · rintro (hj | rfl)
      · exact hj
      · obtain ⟨p, hp, hpk⟩ := List.any_eq_true.mp h
        simp only [decide_eq_true_eq] at hpk
        exact hpk ▸ List.mem_map_of_mem Prod.fst hp
  · simp [h]

/-! ## Lemmas about `pathOr` on the mounted state -/

lemma getField_mkState (slice : List (String × JSVal)) :
    getField (mkState slice) "reduxSagaFetch" = .obj slice := rfl

lemma pathOr_slice (slice : List (String × JSVal)) (d : JSVal) :
    pathOr ["reduxSagaFetch"] (mkState slice) d = .obj slice := rfl

/-- Three-segment `pathOr` on a mounted slice, for a falsy default: the
entry is looked up, and any falsy intermediate or final value collapses to
the default. -/
lemma truthy_mkState (slice : List (String × JSVal)) : truthy (mkState slice) = true := rfl

lemma pathOr3_mkState (slice : List (String × JSVal)) (key f : String) (d : JSVal)
    (hd : truthy d = false) :
    pathOr ["reduxSagaFetch", key, f] (mkState slice) d
      = (if truthy (getField (.obj slice) key) then
           (if truthy (getField (getField (.obj slice) key) f) then
              getField (getField (.obj slice) key) f
            else d)
         else d) := by
  unfold pathOr
  rw [List.foldl_cons, List.foldl_cons, List.foldl_cons, List.foldl_nil]
  have e1 : (if truthy (mkState slice) && truthy (getField (mkState slice) "reduxSagaFetch")
      then getField (mkState slice) "reduxSagaFetch" else d) = JSVal.obj slice := by
    rw [getField_mkState, truthy_mkState, truthy_obj]
    rfl
  rw [e1]
  by_cases h2 : truthy (getField (JSVal.obj slice) key)
  · by_cases h3 : truthy (getField (getField (JSVal.obj slice) key) f)
    · simp [h2, h3]
    · simp [h2, h3, hd]
  · simp [h2, hd]

/-- Any `pathOr` chain through `reduxSagaFetch`/`key` collapses to the
(falsy) default when the key's entry is `undefined`. -/
lemma pathOr3_absent (state : JSVal) (key f : String) (d : JSVal)
    (hd : truthy d = false)
    (h : getField (getField state "reduxSagaFetch") key = .undefined) :
    pathOr ["reduxSagaFetch", key, f] state d = d := by
  unfold pathOr
  rw [List.foldl_cons, List.foldl_cons, List.foldl_cons, List.foldl_nil]
  by_cases h1 : truthy state && truthy (getField state "reduxSagaFetch")
  · rw [if_pos h1]
    simp [h, hd]
  · rw [if_neg h1]
    simp [hd]

/-! ## Entry field values (immediate consequences of the handler entries) -/

lemma getField_requestEntry_status : getField requestEntry "status" = .str STATE_FETCHING := rfl

lemma getField_requestEntry_payload : getField requestEntry "payload" = .undefined := rfl

lemma getField_requestEntry_error : getField requestEntry "errorPayload" = .undefined := rfl

lemma getField_successEntry_status (p : JSVal) :
    getField (successEntry p) "status" = .str STATE_SUCCESS := rfl

lemma getField_successEntry_payload (p : JSVal) :
    getField (successEntry p) "payload" = getField p "response" := rfl

lemma getField_successEntry_error (p : JSVal) :
    getField (successEntry p) "errorPayload" = .undefined := rfl

lemma getField_failureEntry_status (p : JSVal) :
    getField (failureEntry p) "status" = .str STATE_FAILURE := rfl

lemma getField_failureEntry_payload (p : JSVal) :
    getField (failureEntry p) "payload" = .undefined := rfl

lemma getField_failureEntry_error (p : JSVal) :
    getField (failureEntry p) "errorPayload" = getField p "error" := rfl

lemma applyStep_request (k : String) (s : List (String × JSVal)) :
    applyStep (.request k) s = requestHandler k s := rfl

lemma applyStep_success (k : String) (p : JSVal) (s : List (String × JSVal)) :
    applyStep (.success k p) s = successHandler k p s := rfl

lemma applyStep_failure (k : String) (p : JSVal) (s : List (String × JSVal)) :
    applyStep (.failure k p) s = failureHandler k p s := rfl

/-- Frame property of a single lifecycle handler application. -/
lemma applyStep_getField_other (st : LifecycleStep) (s : List (String × JSVal))
    (j : String) (h : st.key ≠ j) :
    getField (.obj (applyStep st s)) j = getField (.obj s) j := by
  cases st with
  | request K => exact getField_objSet_other _ _ _ _ (Ne.symm h)
  | success K p => exact getField_objSet_other _ _ _ _ (Ne.symm h)
  | failure K p => exact getField_objSet_other _ _ _ _ (Ne.symm h)

lemma applySteps_getField_other (steps : List LifecycleStep) (s : List (String × JSVal))
    (j : String) (h : ∀ st ∈ steps, st.key ≠ j) :
    getField (.obj (applySteps steps s)) j = getField (.obj s) j := by
  induction steps generalizing s with
  | nil => rfl
  | cons st t ih =>
    unfold applySteps
    rw [List.foldl_cons]
    have := ih (applyStep st s) (fun x hx => h x (List.mem_cons_of_mem st hx))
    unfold applySteps at this
    rw [this, applyStep_getField_other st s j (h st (List.mem_cons_self st t))]

/-! ## Claim C6 -/

/-- C6: for a key `K` whose entry is absent from the status table
(`never started`) — including when the whole `reduxSagaFetch` slice is
missing from the state — `isFetching`, `isFetchSuccess` and
`isFetchFailure` return `false`, and `selectPayload` and
`selectErrorPayload` return `undefined`; no query signals an error. -/
theorem unknown_key_queries_default (state : JSVal) (K : String)
    (h : getField (getField state "reduxSagaFetch") K = .undefined) :
    isFetching K state = false ∧ isFetchSuccess K state = false ∧
    isFetchFailure K state = false ∧ selectPayload K state = .undefined ∧
    selectErrorPayload K state = .undefined := by
  refine ⟨?_, ?_, ?_, ?_, ?_⟩
  · unfold isFetching
    rw [pathOr3_absent state K "status" JSVal.null rfl h]
    rfl
  · unfold isFetchSuccess
    rw [pathOr3_absent state K "status" JSVal.null rfl h]
    rfl
  · unfold isFetchFailure
    rw [pathOr3_absent state K "status" JSVal.null rfl h]
    rfl
  · exact pathOr3_absent state K "payload" JSVal.undefined rfl h
  · exact pathOr3_absent state K "errorPayload" JSVal.undefined rfl h

/-- Witness for C6 at the empty state and key `"user"`. -/
theorem unknown_key_queries_default_witness :
    isFetching "user" (.obj []) = false ∧ isFetchSuccess "user" (.obj []) = false ∧
    isFetchFailure "user" (.obj []) = false ∧ selectPayload "user" (.obj []) = .undefined ∧
    selectErrorPayload "user" (.obj []) = .undefined :=
  unknown_key_queries_default (.obj []) "user" rfl

/-! ## Claim C3 -/

/-- C3, counterexample: the success transition carrying the *falsy*
response `0` yields a state in which `isFetchSuccess` is `true` but
`selectPayload` returns `undefined`, not `0`: the hand-rolled `pathOr`
(src/index.js:30–31) replaces falsy path values by the default.  The claim
"selectPayload(K) returns V" for *every* V is therefore false at V = 0. -/
theorem success_falsy_payload_lost :
    isFetchSuccess "user" (mkState (successHandler "user" (.obj [("response", .num 0)]) [])) = true ∧
    selectPayload "user" (mkState (successHandler "user" (.obj [("response", .num 0)]) [])) = .undefined ∧
    JSVal.undefined ≠ JSVal.num 0 := by
  refine ⟨rfl, rfl, fun h => nomatch h⟩

/-- C3, amended: after `K`'s success transition carrying response `V`
(action payload `P` with `P.response = V`), followed by any lifecycle
transitions for keys other than `K`, `isFetchSuccess K` is `true` and
`selectErrorPayload K` is `undefined`; and *provided `V` is truthy*,
`selectPayload K` returns `V` (for falsy `V` it returns `undefined`). -/
theorem success_transition_queries (K : String) (P V : JSVal)
    (slice : List (String × JSVal)) (steps : List LifecycleStep)
    (hV : truthy V = true) (hP : getField P "response" = V)
    (hsteps : ∀ st ∈ steps, st.key ≠ K) :
    isFetchSuccess K (mkState (applySteps steps (successHandler K P slice))) = true ∧
    selectPayload K (mkState (applySteps steps (successHandler K P slice))) = V ∧
    selectErrorPayload K (mkState (applySteps steps (successHandler K P slice))) = .undefined := by
  have hent : getField (.obj (applySteps steps (successHandler K P slice))) K
      = successEntry P := by
    rw [applySteps_getField_other _ _ _ hsteps]
    exact getField_objSet_self _ _ _
  refine ⟨?_, ?_, ?_⟩
  · unfold isFetchSuccess
    rw [pathOr3_mkState _ K "status" JSVal.null rfl, hent, getField_successEntry_status]
    simp only [successEntry, truthy_obj, if_true, truthy_str]
    decide
  · unfold selectPayload
    rw [pathOr3_mkState _ K "payload" JSVal.undefined rfl, hent, getField_successEntry_payload, hP]
    simp [successEntry, hV]
  · unfold selectErrorPayload
    rw [pathOr3_mkState _ K "errorPayload" JSVal.undefined rfl, hent, getField_successEntry_error]
    simp [successEntry]

/-- Witness for the amended C3 at key `"user"`, response `"ok"`. -/
theorem success_transition_queries_witness :
    isFetchSuccess "user" (mkState (applySteps [] (successHandler "user" (.obj [("response", .str "ok")]) []))) = true ∧
    selectPayload "user" (mkState (applySteps [] (successHandler "user" (.obj [("response", .str "ok")]) []))) = .str "ok" ∧
    selectErrorPayload "user" (mkState (applySteps [] (successHandler "user" (.obj [("response", .str "ok")]) []))) = .undefined :=
  success_transition_queries "user" (.obj [("response", .str "ok")]) (.str "ok") [] []
    rfl rfl (by intro st hst; cases hst)

/-! ## Claim C4 -/

/-- C4, counterexample: the failure transition carrying the *falsy* error
`false` yields a state in which `isFetchFailure` is `true` but
`selectErrorPayload` returns `undefined`, not `false` (same `pathOr`
quirk as for payloads).  The claim "selectErrorPayload(K) returns E" for
*every* E is therefore false at E = false. -/
theorem failure_falsy_error_lost :
    isFetchFailure "user" (mkState (failureHandler "user" (.obj [("error", .bool false)]) [])) = true ∧
    selectErrorPayload "user" (mkState (failureHandler "user" (.obj [("error", .bool false)]) [])) = .undefined ∧
    JSVal.undefined ≠ JSVal.bool false := by
  refine ⟨rfl, rfl, fun h => nomatch h⟩

/-- C4, amended: after `K`'s failure transition carrying error `E`
(action payload `P` with `P.error = E`), followed by any lifecycle
transitions for keys other than `K`, `isFetchFailure K` is `true` and
`selectPayload K` is `undefined`; and *provided `E` is truthy*,
`selectErrorPayload K` returns `E` (for falsy `E` it returns
`undefined`). -/
theorem failure_transition_queries (K : String) (P E : JSVal)
    (slice : List (String × JSVal)) (steps : List LifecycleStep)
    (hE : truthy E = true) (hP : getField P "error" = E)
    (hsteps : ∀ st ∈ steps, st.key ≠ K) :
    isFetchFailure K (mkState (applySteps steps (failureHandler K P slice))) = true ∧
    selectErrorPayload K (mkState (applySteps steps (failureHandler K P slice))) = E ∧
    selectPayload K (mkState (applySteps steps (failureHandler K P slice))) = .undefined := by
  have hent : getField (.obj (applySteps steps (failureHandler K P slice))) K
      = failureEntry P := by
    rw [applySteps_getField_other _ _ _ hsteps]
    exact getField_objSet_self _ _ _
  refine ⟨?_, ?_, ?_⟩
  · unfold isFetchFailure
    rw [pathOr3_mkState _ K "status" JSVal.null rfl, hent, getField_failureEntry_status]
    simp only [failureEntry, truthy_obj, if_true, truthy_str]
    decide
  · unfold selectErrorPayload
    rw [pathOr3_mkState _ K "errorPayload" JSVal.undefined rfl, hent, getField_failureEntry_error, hP]
    simp [failureEntry, hE]
  · unfold selectPayload
    rw [pathOr3_mkState _ K "payload" JSVal.undefined rfl, hent, getField_failureEntry_payload]
    simp [failureEntry]

/-- Witness for the amended C4 at key `"user"`, error `"boom"`. -/
theorem failure_transition_queries_witness :
    isFetchFailure "user" (mkState (applySteps [] (failureHandler "user" (.obj [("error", .str "boom")]) []))) = true ∧
    selectErrorPayload "user" (mkState (applySteps [] (failureHandler "user" (.obj [("error", .str "boom")]) []))) = .str "boom" ∧
    selectPayload "user" (mkState (applySteps [] (failureHandler "user" (.obj [("error", .str "boom")]) []))) = .undefined :=
  failure_transition_queries "user" (.obj [("error", .str "boom")]) (.str "boom") [] []
    rfl rfl (by intro st hst; cases hst)

/-! ## Claim C10 -/

/-- C10: each of a key `K`'s three lifecycle handlers replaces only `K`'s
entry — every other key's binding in the slice is unchanged (same
presence and same value). -/
theorem handlers_frame_other_keys (K j : String) (P : JSVal)
    (slice : List (String × JSVal)) (h : j ≠ K) :
    (requestHandler K slice).find? (fun p => p.1 = j) = slice.find? (fun p => p.1 = j) ∧
    (successHandler K P slice).find? (fun p => p.1 = j) = slice.find? (fun p => p.1 = j) ∧
    (failureHandler K P slice).find? (fun p => p.1 = j) = slice.find? (fun p => p.1 = j) :=
  ⟨find?_objSet_other _ _ _ _ h, find?_objSet_other _ _ _ _ h,
    find?_objSet_other _ _ _ _ h⟩

/-- Witness for C10: `"user"`'s handlers leave `"other"`'s entry alone. -/
theorem handlers_frame_other_keys_witness :
    (requestHandler "user" [("other", .str "x")]).find? (fun p => p.1 = "other")
      = [(("other" : String), JSVal.str "x")].find? (fun p => p.1 = "other") ∧
    (successHandler "user" (.obj []) [("other", .str "x")]).find? (fun p => p.1 = "other")
      = [(("other" : String), JSVal.str "x")].find? (fun p => p.1 = "other") ∧
    (failureHandler "user" (.obj []) [("other", .str "x")]).find? (fun p => p.1 = "other")
      = [(("other" : String), JSVal.str "x")].find? (fun p => p.1 = "other") :=
  handlers_frame_other_keys "user" "other" (.obj []) [("other", .str "x")]
    (by decide)

/-! ## Claim C8 -/

/-- At most one of `payload` and `errorPayload` is set. -/
def EntryOk (e : JSVal) : Prop :=
  getField e "payload" = .undefined ∨ getField e "errorPayload" = .undefined

/-- C8: in every status-table state reachable from the empty initial
slice by the three lifecycle handlers, every key's entry has at most one
of `payload`/`errorPayload` set; and the request (Fetching) handler
writes an entry with *both* cleared to `undefined`. -/
theorem payload_error_exclusive :
    (∀ s, ReachableSlice s → ∀ k, EntryOk (getField (.obj s) k)) ∧
    (∀ (K : String) (slice : List (String × JSVal)),
      getField (getField (.obj (requestHandler K slice)) K) "payload" = .undefined ∧
      getField (getField (.obj (requestHandler K slice)) K) "errorPayload" = .undefined) := by
  constructor
  · intro s hs
    induction hs with
    | init => intro k; exact Or.inl rfl
    | step st hs ih =>
      intro k
      by_cases hk : st.key = k
      · cases st with
        | request K =>
          simp only [LifecycleStep.key] at hk
          subst hk
          rw [applyStep_request]
          unfold requestHandler
          rw [getField_objSet_self]
          exact Or.inl rfl
        | success K p =>
          simp only [LifecycleStep.key] at hk
          subst hk
          rw [applyStep_success]
          unfold successHandler
          rw [getField_objSet_self]
          exact Or.inr rfl
        | failure K p =>
          simp only [LifecycleStep.key] at hk
          subst hk
          rw [applyStep_failure]
          unfold failureHandler
          rw [getField_objSet_self]
          exact Or.inl rfl
      · rw [applyStep_getField_other st _ k hk]
        exact ih k
  · intro K slice
    unfold requestHandler
    rw [getField_objSet_self]
    exact ⟨rfl, rfl⟩

/-- Witness for C8 at the one-step reachable state `{a: requestEntry}`. -/
theorem payload_error_exclusive_witness :
    EntryOk (getField (.obj (applyStep (.request "a") [])) "a") :=
  payload_error_exclusive.1 _ (ReachableSlice.step (.request "a") ReachableSlice.init) "a"

/-! ## Claim C7 -/

/-- C7, counterexample: a status table whose only failed key is the empty
string `""`.  `find` returns `""`, and `Boolean("")` is `false`, so
`hasFetchFailures` reports `false` even though the failure enumeration
`selectErrorPayloads` is non-empty.  The claimed equivalence is false at
this state. -/
theorem hasFetchFailures_empty_key_cex :
    hasFetchFailures (mkState [("", .obj [("status", .str "FAILURE"), ("errorPayload", .str "boom")])]) = false ∧
    selectErrorPayloads (mkState [("", .obj [("status", .str "FAILURE"), ("errorPayload", .str "boom")])]) ≠ [] ∧
    sliceStatus [("", .obj [("status", .str "FAILURE"), ("errorPayload", .str "boom")])] "" = .str STATE_FAILURE := by
  refine ⟨rfl, ?_, rfl⟩
  intro h
  have e : selectErrorPayloads (mkState [("", .obj [("status", .str "FAILURE"), ("errorPayload", .str "boom")])])
      = [JSVal.obj [("key", .str ""), ("error", .str "boom")]] := rfl
  rw [e] at h
  exact List.cons_ne_nil _ _ h

/-- C7, amended: for status tables all of whose keys are non-empty
strings, `hasFetchFailures` is `true` iff `selectErrorPayloads` is
non-empty, iff some key's status is `FAILURE`; and `selectErrorPayloads`
is exactly the failed keys, in table order, each paired (as
`{key, error}`) with its stored `errorPayload`. -/
theorem hasFetchFailures_iff_failures (fields : List (String × JSVal))
    (hkeys : ∀ k ∈ fields.map Prod.fst, k ≠ "") :
    (hasFetchFailures (mkState fields) = true ↔ selectErrorPayloads (mkState fields) ≠ []) ∧
    (hasFetchFailures (mkState fields) = true ↔
      ∃ k ∈ fields.map Prod.fst, sliceStatus fields k = .str STATE_FAILURE) ∧
    selectErrorPayloads (mkState fields)
      = ((fields.map Prod.fst).filter
          (fun k => strictEqStr (sliceStatus fields k) STATE_FAILURE)).map
          (fun k => .obj [("key", .str k), ("error", getField (getField (.obj fields) k) "errorPayload")]) := by
  have hunf : hasFetchFailures (mkState fields)
      = (match (fields.map Prod.fst).find?
            (fun k => strictEqStr (sliceStatus fields k) STATE_FAILURE) with
         | some k => truthy (.str k)
         | none => false) := rfl
  have hsel : selectErrorPayloads (mkState fields)
      = ((fields.map Prod.fst).filter
          (fun k => strictEqStr (sliceStatus fields k) STATE_FAILURE)).map
          (fun k => .obj [("key", .str k), ("error", getField (getField (.obj fields) k) "errorPayload")]) := rfl
  have hhas : hasFetchFailures (mkState fields) = true ↔
      ∃ k ∈ fields.map Prod.fst, strictEqStr (sliceStatus fields k) STATE_FAILURE = true := by
    rw [hunf]
    cases hfind : (fields.map Prod.fst).find?
        (fun k => strictEqStr (sliceStatus fields k) STATE_FAILURE) with
    | some k =>
      have hmem := List.mem_of_find?_eq_some hfind
      have hpk := List.find?_some hfind
      have htru : truthy (JSVal.str k) = true := by
        have := hkeys k hmem
        simp [this]
      simp only [htru, true_iff]
      exact ⟨k, hmem, hpk⟩
    | none =>
      have hnone := List.find?_eq_none.mp hfind
      simp only [Bool.false_eq_true, false_iff]
      rintro ⟨k, hk, hpk⟩
      exact hnone k hk hpk
  have hne : selectErrorPayloads (mkState fields) ≠ [] ↔
      ∃ k ∈ fields.map Prod.fst, strictEqStr (sliceStatus fields k) STATE_FAILURE = true := by
    rw [hsel]
    simp only [Ne, List.map_eq_nil_iff, List.filter_eq_nil_iff, not_forall]
    constructor
    · rintro ⟨k, hk, hpk⟩
      exact ⟨k, hk, by simpa using hpk⟩
    · rintro ⟨k, hk, hpk⟩
      exact ⟨k, hk, by simpa using hpk⟩
  refine ⟨hhas.trans hne.symm, ?_, hsel⟩
  rw [hhas]
  constructor
  · rintro ⟨k, hk, hpk⟩
    exact ⟨k, hk, (strictEqStr_iff _ _).mp hpk⟩
  · rintro ⟨k, hk, hpk⟩
    exact ⟨k, hk, (strictEqStr_iff _ _).mpr hpk⟩

/-- Witness for the amended C7 at a table with one failed key `"a"`. -/
theorem hasFetchFailures_iff_failures_witness :
    (hasFetchFailures (mkState [("a", .obj [("status", .str "FAILURE"), ("errorPayload", .str "e")])]) = true ↔
      selectErrorPayloads (mkState [("a", .obj [("status", .str "FAILURE"), ("errorPayload", .str "e")])]) ≠ []) ∧
    (hasFetchFailures (mkState [("a", .obj [("status", .str "FAILURE"), ("errorPayload", .str "e")])]) = true ↔
      ∃ k ∈ [("a", JSVal.obj [("status", .str "FAILURE"), ("errorPayload", .str "e")])].map Prod.fst,
        sliceStatus [("a", .obj [("status", .str "FAILURE"), ("errorPayload", .str "e")])] k = .str STATE_FAILURE) ∧
    selectErrorPayloads (mkState [("a", .obj [("status", .str "FAILURE"), ("errorPayload", .str "e")])])
      = (([("a", JSVal.obj [("status", .str "FAILURE"), ("errorPayload", .str "e")])].map Prod.fst).filter
          (fun k => strictEqStr (sliceStatus [("a", .obj [("status", .str "FAILURE"), ("errorPayload", .str "e")])] k) STATE_FAILURE)).map
          (fun k => .obj [("key", .str k),
            ("error", getField (getField (.obj [("a", .obj [("status", .str "FAILURE"), ("errorPayload", .str "e")])]) k) "errorPayload")]) :=
  hasFetchFailures_iff_failures [("a", .obj [("status", .str "FAILURE"), ("errorPayload", .str "e")])]
    (by intro k hk; rw [List.map_cons, List.map_nil, List.mem_singleton] at hk; subst hk; decide)

/-! ## Claim C5 -/

/-- First occurrence wins: a key of the field list is bound to the value
of its first occurrence. -/
lemma getField_mem (fields : List (String × JSVal)) (k : String)
    (h : k ∈ fields.map Prod.fst) :
    ∃ p ∈ fields, p.1 = k ∧ getField (.obj fields) k = p.2 := by
  obtain ⟨p, hp, hpk⟩ := List.mem_map.mp h
  cases hfind : fields.find? (fun q => (q.1 = k : Bool)) with
  | some q =>
    exact ⟨q, List.mem_of_find?_eq_some hfind, by simpa using List.find?_some hfind,
      by simp [getField, hfind]⟩
  | none =>
    exact absurd (by simp [hpk]) (List.find?_eq_none.mp hfind p hp)

lemma foldAdd_ok (ks : List String) (cfg : JSVal) (reg0 : List (String × JSVal))
    (h : ∀ k ∈ ks, jsTypeof (getField (getField cfg k) "fetcher") = "function") :
    ∃ reg, ks.foldlM (fun reg key => addFn reg key (getField cfg key)) reg0 = .ok reg ∧
      ∀ j : String, getField (.obj reg) j
        = if j ∈ ks then getField cfg j else getField (.obj reg0) j := by
  induction ks generalizing reg0 with
  | nil => exact ⟨reg0, rfl, by intro j; simp⟩
  | cons k t ih =>
    have hk := h k (List.mem_cons_self _ _)
    have hadd : addFn reg0 k (getField cfg k) = .ok (objSet reg0 k (getField cfg k)) := by
      unfold addFn
      rw [if_pos hk]
    obtain ⟨reg, heq, hget⟩ :=
      ih (objSet reg0 k (getField cfg k)) (fun x hx => h x (List.mem_cons_of_mem k hx))
    refine ⟨reg, ?_, ?_⟩
    · rw [List.foldlM_cons, hadd]
      exact heq
    · intro j
      rw [hget j]
      by_cases hjt : j ∈ t
      · simp [hjt, List.mem_cons]
      · by_cases hjk : j = k
        · subst hjk
          simp [hjt, getField_objSet_self]
        · simp [hjt, hjk, List.mem_cons, getField_objSet_other _ _ _ _ hjk]

lemma foldAdd_error (ks : List String) (cfg : JSVal) (reg0 : List (String × JSVal))
    (h : ∃ k ∈ ks, jsTypeof (getField (getField cfg k) "fetcher") ≠ "function") :
    ∃ e, ks.foldlM (fun reg key => addFn reg key (getField cfg key)) reg0 = .error e := by
  induction ks generalizing reg0 with
  | nil => simp at h
  | cons k t ih =>
    by_cases hk : jsTypeof (getField (getField cfg k) "fetcher") = "function"
    · have hadd : addFn reg0 k (getField cfg k) = .ok (objSet reg0 k (getField cfg k)) := by
        unfold addFn
        rw [if_pos hk]
      obtain ⟨k', hk', hbad⟩ := h
      rcases List.mem_cons.mp hk' with rfl | hk't
      · exact absurd hk hbad
      · obtain ⟨e, he⟩ := ih (objSet reg0 k (getField cfg k)) ⟨k', hk't, hbad⟩
        refine ⟨e, ?_⟩
        rw [List.foldlM_cons, hadd]
        exact he
    · refine ⟨"Expected a function for key " ++ k ++ " but got "
        ++ jsTypeof (getField (getField cfg k) "fetcher"), ?_⟩
      rw [List.foldlM_cons]
      have hadd : addFn reg0 k (getField cfg k)
          = .error ("Expected a function for key " ++ k ++ " but got "
            ++ jsTypeof (getField (getField cfg k) "fetcher")) := by
        unfold addFn
        rw [if_neg hk]
      rw [hadd]
      rfl

/-- C5, counterexample: an *array* passed as the configuration is
accepted, not rejected — `typeof [] === 'object'`, so the constructor's
guard does not fire and the (empty) array constructs an empty registry.
The claim that construction "fails synchronously whenever the
configuration is not a key-to-descriptor mapping (for example … an array
was passed)" is false at `[]`. -/
theorem ctor_accepts_array :
    sagaFetcherCtor (.arr []) = .ok [] ∧ jsTypeof (.arr []) = "object" :=
  ⟨rfl, rfl⟩

/-- C5, amended: construction fails synchronously with the descriptive
`Registry must be an object` error whenever `typeof config` is not
`"object"` (strings, numbers, booleans, functions — but *not* arrays,
whose `typeof` is `"object"`: their entries are processed like object
entries, and `null` fails with a `TypeError` from `Object.keys`);
construction fails synchronously with the descriptive `Expected a
function` error whenever some entry lacks a callable `fetcher`; otherwise
construction succeeds and registers every entry of the configuration
under its key. -/
theorem ctor_validation (c : JSVal) (fields : List (String × JSVal))
    (hc : c ≠ .undefined) (hnotObj : jsTypeof c ≠ "object")
    (hgood : ∀ k ∈ fields.map Prod.fst,
      jsTypeof (getField (getField (.obj fields) k) "fetcher") = "function")
    (kbad : String) (fieldsBad : List (String × JSVal))
    (hbadMem : kbad ∈ fieldsBad.map Prod.fst)
    (hbad : jsTypeof (getField (getField (.obj fieldsBad) kbad) "fetcher") ≠ "function") :
    sagaFetcherCtor c = .error ("Registry must be an object but got " ++ jsTypeof c) ∧
    (∃ reg, sagaFetcherCtor (.obj fields) = .ok reg ∧
      ∀ k ∈ fields.map Prod.fst, getField (.obj reg) k = getField (.obj fields) k) ∧
    (∃ e, sagaFetcherCtor (.obj fieldsBad) = .error e) := by
  refine ⟨?_, ?_, ?_⟩
  · cases c with
    | undefined => exact absurd rfl hc
    | null => exact absurd rfl hnotObj
    | obj f => exact absurd rfl hnotObj
    | arr l => exact absurd rfl hnotObj
    | bool b => rfl
    | num n => rfl
    | str s => rfl
    | fn n => rfl
  · obtain ⟨reg, heq, hget⟩ := foldAdd_ok (fields.map Prod.fst) (.obj fields) [] hgood
    refine ⟨reg, ?_, ?_⟩
    · show (objKeys (.obj fields)).foldlM
        (fun reg key => addFn reg key (getField (.obj fields) key)) [] = .ok reg
      exact heq
    · intro k hk
      rw [hget k, if_pos hk]
  · obtain ⟨e, he⟩ := foldAdd_error (fieldsBad.map Prod.fst) (.obj fieldsBad) []
      ⟨kbad, hbadMem, hbad⟩
    refine ⟨e, ?_⟩
    show (objKeys (.obj fieldsBad)).foldlM
      (fun reg key => addFn reg key (getField (.obj fieldsBad) key)) [] = .error e
    exact he

/-- Witness for the amended C5: a string config is rejected, a well-formed
config is registered, a config with a non-callable fetcher is rejected. -/
theorem ctor_validation_witness :
    sagaFetcherCtor (.str "foo") = .error ("Registry must be an object but got " ++ jsTypeof (.str "foo")) ∧
    (∃ reg, sagaFetcherCtor (.obj [("user", .obj [("fetcher", .fn 0)])]) = .ok reg ∧
      ∀ k ∈ [("user", JSVal.obj [("fetcher", .fn 0)])].map Prod.fst,
        getField (.obj reg) k = getField (.obj [("user", JSVal.obj [("fetcher", .fn 0)])]) k) ∧
    (∃ e, sagaFetcherCtor (.obj [("foo", .num 5)]) = .error e) :=
  ctor_validation (.str "foo") [("user", .obj [("fetcher", .fn 0)])]
    (fun h => nomatch h) (fun h => nomatch h)
    (by intro k hk; rw [List.map_cons, List.map_nil, List.mem_singleton] at hk; subst hk; rfl)
    "foo" [("foo", .num 5)] (by simp) (fun h => nomatch h)

/-! ## Claim C9 -/

lemma workerLoop_error_cases (registry group : JSVal) (key : String) (input E : JSVal) :
    ∀ (laterStates blockers : List JSVal),
      workerLoop registry group key input (.error E) blockers laterStates = .error E ∨
      ∃ bs, workerLoop registry group key input (.error E) blockers laterStates
        = .ok (.suspended bs) := by
  intro laterStates
  induction laterStates with
  | nil =>
    intro blockers
    by_cases hb : blockers.isEmpty
    · left
      unfold workerLoop
      rw [if_pos hb]
    · right
      refine ⟨blockers, ?_⟩
      unfold workerLoop
      rw [if_neg hb]
  | cons s rest ih =>
    intro blockers
    by_cases hb : blockers.isEmpty
    · left
      unfold workerLoop
      rw [if_pos hb]
    · have := ih (fetchingActionsInGroup s registry group key)
      unfold workerLoop
      rw [if_neg hb]
      exact this

lemma workerLoop_ok_cases (registry group : JSVal) (key : String) (input v : JSVal) :
    ∀ (laterStates blockers : List JSVal),
      ∃ r, workerLoop registry group key input (.ok v) blockers laterStates = .ok r := by
  intro laterStates
  induction laterStates with
  | nil =>
    intro blockers
    by_cases hb : blockers.isEmpty
    · refine ⟨.completed (successType key) (.obj [("response", v), ("request", input)]), ?_⟩
      unfold workerLoop
      rw [if_pos hb]
    · refine ⟨.suspended blockers, ?_⟩
      unfold workerLoop
      rw [if_neg hb]
  | cons s rest ih =>
    intro blockers
    by_cases hb : blockers.isEmpty
    · refine ⟨.completed (successType key) (.obj [("response", v), ("request", input)]), ?_⟩
      unfold workerLoop
      rw [if_pos hb]
    · have := ih (fetchingActionsInGroup s registry group key)
      unfold workerLoop
      rw [if_neg hb]
      exact this

/-- C9: a cycle of the request worker (src/index.js:87–116) never
propagates an error (its result is always `.ok`, whatever the fetcher
does); whenever the fetcher's outcome is an error `E` and the cycle
completes, the emitted action is the key's failure action whose payload
carries both the error `E` and the original request input; and when the
worker is not group-blocked the error cycle does complete with exactly
that action. -/
theorem worker_error_containment (registry : JSVal) (key : String) (input : JSVal)
    (s0 : JSVal) (laterStates : List JSVal) (E : JSVal)
    (hunblocked : fetchingActionsInGroup s0 registry
      (getField (getField registry key) "group") key = []) :
    (∀ outcome, ∃ r, runWorkerCycle registry key input s0 laterStates outcome = .ok r) ∧
    (∀ t p, runWorkerCycle registry key input s0 laterStates (.error E) = .ok (.completed t p) →
      t = failureType key ∧ p = .obj [("error", E), ("request", input)]) ∧
    runWorkerCycle registry key input s0 laterStates (.error E)
      = .ok (.completed (failureType key) (.obj [("error", E), ("request", input)])) := by
  refine ⟨?_, ?_, ?_⟩
  · intro outcome
    cases outcome with
    | ok v =>
      obtain ⟨r, hr⟩ := workerLoop_ok_cases registry
        (getField (getField registry key) "group") key input v laterStates
        (fetchingActionsInGroup s0 registry (getField (getField registry key) "group") key)
      exact ⟨r, by unfold runWorkerCycle runWorkerBody; rw [hr]⟩
    | error e =>
      rcases workerLoop_error_cases registry
        (getField (getField registry key) "group") key input e laterStates
        (fetchingActionsInGroup s0 registry (getField (getField registry key) "group") key)
        with herr | ⟨bs, hsus⟩
      · exact ⟨.completed (failureType key) (.obj [("error", e), ("request", input)]),
          by unfold runWorkerCycle runWorkerBody; rw [herr]⟩
      · exact ⟨.suspended bs, by unfold runWorkerCycle runWorkerBody; rw [hsus]⟩
  · intro t p h
    rcases workerLoop_error_cases registry
      (getField (getField registry key) "group") key input E laterStates
      (fetchingActionsInGroup s0 registry (getField (getField registry key) "group") key)
      with herr | ⟨bs, hsus⟩
    · unfold runWorkerCycle runWorkerBody at h
      rw [herr] at h
      obtain ⟨h1, h2⟩ := CycleOutcome.completed.inj (Except.ok.inj h)
      exact ⟨h1.symm, h2.symm⟩
    · unfold runWorkerCycle runWorkerBody at h
      rw [hsus] at h
      exact absurd (Except.ok.inj h) (fun hh => nomatch hh)
  · have hloop : workerLoop registry (getField (getField registry key) "group") key input
        (Except.error E) [] laterStates = .error E := by
      unfold workerLoop
      rfl
    unfold runWorkerCycle runWorkerBody
    simp only [hunblocked, hloop]

/-- Witness for C9 at key `"user"`, input `"in"`, error `"E"`, empty
registry/state (no group, so not blocked). -/
theorem worker_error_containment_witness :
    (∀ outcome, ∃ r, runWorkerCycle (.obj []) "user" (.str "in") (mkState []) [] outcome = .ok r) ∧
    (∀ t p, runWorkerCycle (.obj []) "user" (.str "in") (mkState []) [] (.error (.str "E")) = .ok (.completed t p) →
      t = failureType "user" ∧ p = .obj [("error", .str "E"), ("request", .str "in")]) ∧
    runWorkerCycle (.obj []) "user" (.str "in") (mkState []) [] (.error (.str "E"))
      = .ok (.completed (failureType "user") (.obj [("error", .str "E"), ("request", .str "in")])) :=
  worker_error_containment (.obj []) "user" (.str "in") (mkState []) [] (.str "E") rfl

/-! ## Claim C2 -/

/-- Membership in the computed blocker list, for a non-empty group `G`:
exactly the present keys that are `FETCHING`, registered in group `G`,
non-empty, and different from the requesting key. -/
lemma mem_fetchingActionsInGroup (SF : List (String × JSVal)) (R : JSVal)
    (G : String) (hG : G ≠ "") (K : String) (v : JSVal) :
    v ∈ fetchingActionsInGroup (mkState SF) R (.str G) K ↔
      ∃ a : String, v = .str a ∧ a ∈ SF.map Prod.fst ∧
        sliceStatus SF a = .str STATE_FETCHING ∧
        getField (getField R a) "group" = .str G ∧ a ≠ "" ∧ a ≠ K := by
  have htr : truthy (JSVal.str G) = true := by simp [hG]
  unfold fetchingActionsInGroup
  rw [if_pos htr]
  have hms : mapStates (mkState SF) STATE_FETCHING
      (fun _current k => if jsStrictEq (getField (getField R k) "group") (.str G)
        then .str k else .undefined)
      = ((SF.map Prod.fst).filter
          (fun k => strictEqStr (sliceStatus SF k) STATE_FETCHING)).map
          (fun k => if jsStrictEq (getField (getField R k) "group") (.str G)
            then .str k else .undefined) := rfl
  rw [hms]
  rw [List.mem_filter]
  constructor
  · rintro ⟨hmem, hp⟩
    obtain ⟨a, hafil, hfa⟩ := List.mem_map.mp hmem
    obtain ⟨hamem, hapred⟩ := List.mem_filter.mp hafil
    by_cases hgrp : jsStrictEq (getField (getField R a) "group") (.str G) = true
    · rw [if_pos hgrp] at hfa
      subst hfa
      have h1 : a ≠ "" := by
        intro ha
        subst ha
        simp [truthy] at hp
      have h2 : a ≠ K := by
        intro ha
        subst ha
        simp [jsStrictEq] at hp
      exact ⟨a, rfl, hamem, (strictEqStr_iff _ _).mp hapred,
        (jsStrictEq_str_iff _ _).mp hgrp, h1, h2⟩
    · rw [if_neg hgrp] at hfa
      subst hfa
      simp [truthy] at hp
  · rintro ⟨a, rfl, hamem, hstat, hgrp, hne, hnK⟩
    refine ⟨?_, ?_⟩
    · apply List.mem_map.mpr
      refine ⟨a, List.mem_filter.mpr ⟨hamem, (strictEqStr_iff _ _).mpr hstat⟩, ?_⟩
      rw [if_pos ((jsStrictEq_str_iff _ _).mpr hgrp)]
    · simp [truthy, jsStrictEq, hne, hnK]

lemma fetchingActionsInGroup_falsy (state registry g : JSVal) (K : String)
    (h : truthy g = false) :
    fetchingActionsInGroup state registry g K = [] := by
  unfold fetchingActionsInGroup
  rw [if_neg (by rw [h]; exact fun hh => nomatch hh)]

/-- C2, counterexample: key `"b"`'s descriptor *has* group `""` (shared
with `"a"`, which is `FETCHING`), yet the computed blocker set is empty —
the empty-string group is falsy, so the coordinator is bypassed entirely,
contradicting the claimed set `{a}`. -/
theorem blocker_set_empty_group_cex :
    fetchingActionsInGroup
      (mkState [("a", .obj [("status", .str "FETCHING")])])
      (.obj [("a", .obj [("fetcher", .fn 0), ("group", .str "")]),
             ("b", .obj [("fetcher", .fn 1), ("group", .str "")])])
      (.str "") "b" = [] ∧
    sliceStatus [("a", .obj [("status", .str "FETCHING")])] "a" = .str STATE_FETCHING ∧
    getField (getField (.obj [("a", .obj [("fetcher", .fn 0), ("group", .str "")]),
             ("b", .obj [("fetcher", .fn 1), ("group", .str "")])]) "a") "group" = .str "" ∧
    getField (getField (.obj [("a", .obj [("fetcher", .fn 0), ("group", .str "")]),
             ("b", .obj [("fetcher", .fn 1), ("group", .str "")])]) "b") "group" = .str "" ∧
    ("a" : String) ≠ "b" :=
  ⟨rfl, rfl, rfl, rfl, by decide⟩

/-- C2, amended: for a key `K` whose descriptor has a *non-empty* group
`G` and a status table whose keys are all registered, the computed blocker
list contains exactly (as `.str` values) the keys `k ≠ K`, `k ≠ ""`,
registered with group `G` and currently `FETCHING`; for a key whose
`group` is falsy (absent, or the empty string) the computed blocker list
is empty and the worker proceeds immediately. -/
theorem blocker_set_characterization (SF RF : List (String × JSVal)) (G K : String)
    (hG : G ≠ "")
    (hreg : ∀ k ∈ SF.map Prod.fst, k ∈ RF.map Prod.fst)
    (g : JSVal) (hgFalsy : truthy g = false) :
    (∀ a : String, (.str a) ∈ fetchingActionsInGroup (mkState SF) (.obj RF) (.str G) K ↔
        (a ∈ SF.map Prod.fst ∧ sliceStatus SF a = .str STATE_FETCHING ∧
         getField (getField (.obj RF) a) "group" = .str G ∧ a ≠ "" ∧ a ≠ K)) ∧
    (∀ v ∈ fetchingActionsInGroup (mkState SF) (.obj RF) (.str G) K, ∃ a : String, v = .str a) ∧
    fetchingActionsInGroup (mkState SF) (.obj RF) g K = [] := by
  refine ⟨?_, ?_, fetchingActionsInGroup_falsy _ _ _ _ hgFalsy⟩
  · intro a
    rw [mem_fetchingActionsInGroup SF (.obj RF) G hG K (.str a)]
    constructor
    · rintro ⟨a', ha', h1, h2, h3, h4, h5⟩
      obtain rfl : a = a' := by
        injection ha'
      exact ⟨h1, h2, h3, h4, h5⟩
    · rintro ⟨h1, h2, h3, h4, h5⟩
      exact ⟨a, rfl, h1, h2, h3, h4, h5⟩
  · intro v hv
    obtain ⟨a, ha, -⟩ := (mem_fetchingActionsInGroup SF (.obj RF) G hG K v).mp hv
    exact ⟨a, ha⟩

/-- Witness for the amended C2: two keys `a`, `b` in group `"g"`, `a`
fetching; `a` is in `b`'s blocker set, and an absent group yields no
blockers. -/
theorem blocker_set_characterization_witness :
    (∀ a : String, (.str a) ∈ fetchingActionsInGroup
        (mkState [("a", .obj [("status", .str "FETCHING")])])
        (.obj [("a", .obj [("fetcher", .fn 0), ("group", .str "g")]),
               ("b", .obj [("fetcher", .fn 1), ("group", .str "g")])]) (.str "g") "b" ↔
        (a ∈ [("a", JSVal.obj [("status", .str "FETCHING")])].map Prod.fst ∧
         sliceStatus [("a", .obj [("status", .str "FETCHING")])] a = .str STATE_FETCHING ∧
         getField (getField (.obj [("a", .obj [("fetcher", .fn 0), ("group", .str "g")]),
               ("b", .obj [("fetcher", .fn 1), ("group", .str "g")])]) a) "group" = .str "g" ∧
         a ≠ "" ∧ a ≠ "b")) ∧
    (∀ v ∈ fetchingActionsInGroup
        (mkState [("a", .obj [("status", .str "FETCHING")])])
        (.obj [("a", .obj [("fetcher", .fn 0), ("group", .str "g")]),
               ("b", .obj [("fetcher", .fn 1), ("group", .str "g")])]) (.str "g") "b",
      ∃ a : String, v = .str a) ∧
    fetchingActionsInGroup
        (mkState [("a", .obj [("status", .str "FETCHING")])])
        (.obj [("a", .obj [("fetcher", .fn 0), ("group", .str "g")]),
               ("b", .obj [("fetcher", .fn 1), ("group", .str "g")])]) .undefined "b" = [] :=
  blocker_set_characterization [("a", .obj [("status", .str "FETCHING")])]
    [("a", .obj [("fetcher", .fn 0), ("group", .str "g")]),
     ("b", .obj [("fetcher", .fn 1), ("group", .str "g")])] "g" "b"
    (by decide)
    (by intro k hk
        rw [List.map_cons, List.map_nil, List.mem_singleton] at hk
        subst hk
        simp)
    .undefined rfl

/-! ## Claim C1: action-type disambiguation -/

lemma typeStr_inj (x y s : String)
    (h : ("REDUX_SAGA_FETCH_" ++ x ++ s) = ("REDUX_SAGA_FETCH_" ++ y ++ s)) : x = y := by
  have hd := congrArg String.data h
  rw [String.data_append, String.data_append, String.data_append, String.data_append,
    List.append_assoc, List.append_assoc] at hd
  exact String.ext (List.append_cancel_right (List.append_cancel_left hd))

lemma typeStr_ne (x y s t : String) (c d : Char) (ls lt : List Char)
    (hs : s.data.reverse = c :: ls) (ht : t.data.reverse = d :: lt) (hcd : c ≠ d) :
    ("REDUX_SAGA_FETCH_" ++ x ++ s) ≠ ("REDUX_SAGA_FETCH_" ++ y ++ t) := by
  intro h
  have hd := congrArg String.data h
  rw [String.data_append, String.data_append, String.data_append, String.data_append,
    List.append_assoc, List.append_assoc] at hd
  have h2 := List.append_cancel_left hd
  have h3 := congrArg List.reverse h2
  rw [List.reverse_append, List.reverse_append, hs, ht, List.cons_append,
    List.cons_append] at h3
  injection h3 with h4 h5
  exact hcd h4

lemma requestType_inj (a b : String) (h : requestType a = requestType b) :
    jsToUpperCase a = jsToUpperCase b := typeStr_inj _ _ _ h

lemma successType_inj (a b : String) (h : successType a = successType b) :
    jsToUpperCase a = jsToUpperCase b := typeStr_inj _ _ _ h

lemma failureType_inj (a b : String) (h : failureType a = failureType b) :
    jsToUpperCase a = jsToUpperCase b := typeStr_inj _ _ _ h

lemma requestType_ne_successType (a b : String) : requestType a ≠ successType b :=
  typeStr_ne _ _ _ _ 'T' 'S' _ _ rfl rfl (by decide)

lemma requestType_ne_failureType (a b : String) : requestType a ≠ failureType b :=
  typeStr_ne _ _ _ _ 'T' 'E' _ _ rfl rfl (by decide)

lemma successType_ne_failureType (a b : String) : successType a ≠ failureType b :=
  typeStr_ne _ _ _ _ 'S' 'E' _ _ rfl rfl (by decide)

lemma requestType_not_finished (k : String) (bs : List JSVal) :
    requestType k ∉ getFinishedActions bs := by
  intro h
  unfold getFinishedActions at h
  rcases List.mem_append.mp h with h | h <;> obtain ⟨b, hb, he⟩ := List.mem_map.mp h
  · exact requestType_ne_successType k (asString b) he.symm
  · exact requestType_ne_failureType k (asString b) he.symm

lemma successType_mem_finished (a : String) (bs : List JSVal) (h : (JSVal.str a) ∈ bs) :
    successType a ∈ getFinishedActions bs := by
  unfold getFinishedActions
  exact List.mem_append_left _ (List.mem_map.mpr ⟨.str a, h, rfl⟩)

lemma failureType_mem_finished (a : String) (bs : List JSVal) (h : (JSVal.str a) ∈ bs) :
    failureType a ∈ getFinishedActions bs := by
  unfold getFinishedActions
  exact List.mem_append_right _ (List.mem_map.mpr ⟨.str a, h, rfl⟩)

/-! ## Claim C1: handler resolution under distinct uppercased keys -/

lemma filterMap_eq_singleton {α β : Type} [DecidableEq α] (l : List α) (f : α → Option β)
    (k : α) (v : β) (hl : l.Nodup) (hk : k ∈ l)
    (hf : ∀ j ∈ l, f j = if j = k then some v else none) :
    l.filterMap f = [v] := by
  induction l with
  | nil => cases hk
  | cons a t ih =>
    obtain ⟨hnotin, hnd⟩ := List.nodup_cons.mp hl
    rcases List.mem_cons.mp hk with rfl | hkt
    · have hfa : f k = some v := by rw [hf k (List.mem_cons_self _ _), if_pos rfl]
      have htnil : t.filterMap f = [] := by
        rw [List.filterMap_eq_nil_iff]
        intro j hj
        rw [hf j (List.mem_cons_of_mem _ hj), if_neg]
        intro hjk
        exact hnotin (hjk ▸ hj)
      rw [List.filterMap_cons, hfa]
      show v :: t.filterMap f = [v]
      rw [htnil]
    · have hfa : f a = none := by
        rw [hf a (List.mem_cons_self _ _), if_neg]
        intro h
        exact hnotin (h ▸ hkt)
      rw [List.filterMap_cons, hfa]
      exact ih hnd hkt (fun j hj => hf j (List.mem_cons_of_mem _ hj))

/-- Under pairwise-distinct uppercased keys, `k`'s request action type
resolves in the `handlers` object to `k`'s own request handler. -/
lemma handlerFor_request (keys : List String) (hN : keys.Nodup)
    (hU : ∀ k1 ∈ keys, ∀ k2 ∈ keys, jsToUpperCase k1 = jsToUpperCase k2 → k1 = k2)
    (k : String) (hk : k ∈ keys) :
    handlerFor keys (requestType k) = some (k, .request) := by
  unfold handlerFor
  rw [filterMap_eq_singleton keys _ k (k, .request) hN hk ?_]
  · rfl
  · intro j hj
    unfold handlerMatch
    by_cases hjk : j = k
    · subst hjk
      rw [if_pos rfl, if_pos rfl]
    · rw [if_neg (fun h => hjk (hU k hk j hj (requestType_inj k j h)).symm),
        if_neg (requestType_ne_successType k j),
        if_neg (requestType_ne_failureType k j), if_neg hjk]

lemma handlerFor_success (keys : List String) (hN : keys.Nodup)
    (hU : ∀ k1 ∈ keys, ∀ k2 ∈ keys, jsToUpperCase k1 = jsToUpperCase k2 → k1 = k2)
    (k : String) (hk : k ∈ keys) :
    handlerFor keys (successType k) = some (k, .success) := by
  unfold handlerFor
  rw [filterMap_eq_singleton keys _ k (k, .success) hN hk ?_]
  · rfl
  · intro j hj
    unfold handlerMatch
    by_cases hjk : j = k
    · subst hjk
      rw [if_neg (fun h => requestType_ne_successType j j h.symm), if_pos rfl, if_pos rfl]
    · rw [if_neg (fun h => requestType_ne_successType j k h.symm),
        if_neg (fun h => hjk (hU k hk j hj (successType_inj k j h)).symm),
        if_neg (successType_ne_failureType k j), if_neg hjk]

lemma handlerFor_failure (keys : List String) (hN : keys.Nodup)
    (hU : ∀ k1 ∈ keys, ∀ k2 ∈ keys, jsToUpperCase k1 = jsToUpperCase k2 → k1 = k2)
    (k : String) (hk : k ∈ keys) :
    handlerFor keys (failureType k) = some (k, .failure) := by
  unfold handlerFor
  rw [filterMap_eq_singleton keys _ k (k, .failure) hN hk ?_]
  · rfl
  · intro j hj
    unfold handlerMatch
    by_cases hjk : j = k
    · subst hjk
      rw [if_neg (fun h => requestType_ne_failureType j j h.symm),
        if_neg (fun h => successType_ne_failureType j j h.symm), if_pos rfl, if_pos rfl]
    · rw [if_neg (fun h => requestType_ne_failureType j k h.symm),
        if_neg (fun h => successType_ne_failureType j k h.symm),
        if_neg (fun h => hjk (hU k hk j hj (failureType_inj k j h)).symm), if_neg hjk]

lemma dispatchSlice_request (M : Model) (hN : M.keys.Nodup)
    (hU : ∀ k1 ∈ M.keys, ∀ k2 ∈ M.keys, jsToUpperCase k1 = jsToUpperCase k2 → k1 = k2)
    (k : String) (hk : k ∈ M.keys) (p : JSVal) (slice : List (String × JSVal)) :
    dispatchSlice M (requestType k) p slice = requestHandler k slice := by
  unfold dispatchSlice
  rw [handlerFor_request M.keys hN hU k hk]
  rfl

lemma dispatchSlice_success (M : Model) (hN : M.keys.Nodup)
    (hU : ∀ k1 ∈ M.keys, ∀ k2 ∈ M.keys, jsToUpperCase k1 = jsToUpperCase k2 → k1 = k2)
    (k : String) (hk : k ∈ M.keys) (p : JSVal) (slice : List (String × JSVal)) :
    dispatchSlice M (successType k) p slice = successHandler k p slice := by
  unfold dispatchSlice
  rw [handlerFor_success M.keys hN hU k hk]
  rfl

lemma dispatchSlice_failure (M : Model) (hN : M.keys.Nodup)
    (hU : ∀ k1 ∈ M.keys, ∀ k2 ∈ M.keys, jsToUpperCase k1 = jsToUpperCase k2 → k1 = k2)
    (k : String) (hk : k ∈ M.keys) (p : JSVal) (slice : List (String × JSVal)) :
    dispatchSlice M (failureType k) p slice = failureHandler k p slice := by
  unfold dispatchSlice
  rw [handlerFor_failure M.keys hN hU k hk]
  rfl

/-! ## Claim C1: phase-table bookkeeping -/

lemma find?_map_keyed {β : Type} (phases : List (String × β)) (g : String × β → β)
    (B : String) :
    ((phases.map (fun jp => (jp.1, g jp))).find? (fun p => p.1 = B))
      = (phases.find? (fun p => p.1 = B)).map (fun jp => (jp.1, g jp)) := by
  induction phases with
  | nil => rfl
  | cons p t ih =>
    by_cases hp : p.1 = B
    · rw [List.map_cons, List.find?_cons_of_pos _ (by simp [hp]),
        List.find?_cons_of_pos _ (by simp [hp]), Option.map_some']
    · rw [List.map_cons, List.find?_cons_of_neg _ (by simp [hp]),
        List.find?_cons_of_neg _ (by simp [hp]), ih]

lemma map_fst_keyed {β : Type} (phases : List (String × β)) (g : String × β → β) :
    (phases.map (fun jp => (jp.1, g jp))).map Prod.fst = phases.map Prod.fst := by
  rw [List.map_map]
  rfl

lemma find?_fst_eq {β : Type} (phases : List (String × β)) (B : String) (pB : String × β)
    (h : phases.find? (fun p => p.1 = B) = some pB) : pB.1 = B := by
  have := List.find?_some h
  simpa using this

lemma lookupPhase_mk (slice : List (String × JSVal)) (phases : List (String × Phase))
    (B : String) :
    lookupPhase ⟨slice, phases⟩ B = (phases.find? (fun p => p.1 = B)).map Prod.snd := rfl

lemma lookupPhase_some_inv (c : Config) (k : String) (ph : Phase)
    (h : lookupPhase c k = some ph) :
    ∃ pB, c.phases.find? (fun p => p.1 = k) = some pB ∧ pB.1 = k ∧ pB.2 = ph := by
  unfold lookupPhase at h
  cases hf : c.phases.find? (fun p => p.1 = k) with
  | none => rw [hf] at h; exact Option.noConfusion h
  | some q =>
    rw [hf, Option.map_some'] at h
    exact ⟨q, rfl, find?_fst_eq _ _ _ hf, Option.some.inj h⟩

lemma mem_keys_of_lookupPhase (c : Config) (k : String) (ph : Phase)
    (h : lookupPhase c k = some ph) : k ∈ c.phases.map Prod.fst := by
  obtain ⟨pB, hf, hfst, -⟩ := lookupPhase_some_inv c k ph h
  exact hfst ▸ List.mem_map_of_mem Prod.fst (List.mem_of_find?_eq_some hf)

/-! ## Claim C1: the wake step -/

lemma wake_eq (M : Model) (k : String) (input : JSVal) (slice : List (String × JSVal)) :
    wake M k input slice =
      (if (fetchingActionsInGroup (mkState slice) M.registry
            (getField (getField M.registry k) "group") k).isEmpty = true
       then Phase.running input
       else Phase.waiting input (fetchingActionsInGroup (mkState slice) M.registry
            (getField (getField M.registry k) "group") k)) := rfl

lemma wake_waiting_of_blocker (M : Model) (k : String) (input : JSVal)
    (slice : List (String × JSVal)) (G : String) (hG : G ≠ "")
    (hgk : getField (getField M.registry k) "group" = .str G)
    (a : String) (ha : a ∈ slice.map Prod.fst)
    (hstat : sliceStatus slice a = .str STATE_FETCHING)
    (hga : getField (getField M.registry a) "group" = .str G)
    (ha0 : a ≠ "") (hak : a ≠ k) :
    ∃ bs, wake M k input slice = .waiting input bs ∧ (JSVal.str a) ∈ bs := by
  rw [wake_eq, hgk]
  have hmem : (JSVal.str a) ∈ fetchingActionsInGroup (mkState slice) M.registry (.str G) k :=
    (mem_fetchingActionsInGroup slice M.registry G hG k (.str a)).mpr
      ⟨a, rfl, ha, hstat, hga, ha0, hak⟩
  refine ⟨fetchingActionsInGroup (mkState slice) M.registry (.str G) k, ?_, hmem⟩
  rw [if_neg]
  intro h
  rw [List.isEmpty_iff] at h
  rw [h] at hmem
  cases hmem

lemma wake_running_of_no_blockers (M : Model) (k : String) (input : JSVal)
    (slice : List (String × JSVal)) (G : String) (hG : G ≠ "")
    (hgk : getField (getField M.registry k) "group" = .str G)
    (hnone : ∀ a : String, ¬(a ∈ slice.map Prod.fst ∧
      sliceStatus slice a = .str STATE_FETCHING ∧
      getField (getField M.registry a) "group" = .str G ∧ a ≠ "" ∧ a ≠ k)) :
    wake M k input slice = .running input := by
  rw [wake_eq, hgk]
  rw [if_pos]
  rw [List.isEmpty_iff, List.eq_nil_iff_forall_not_mem]
  intro v hv
  obtain ⟨a, rfl, h1, h2, h3, h4, h5⟩ :=
    (mem_fetchingActionsInGroup slice M.registry G hG k v).mp hv
  exact hnone a ⟨h1, h2, h3, h4, h5⟩

/-! ## Claim C1: slice status under the handlers -/

lemma sliceStatus_objSet_self (s : List (String × JSVal)) (k : String) (v : JSVal) :
    sliceStatus (objSet s k v) k = getField v "status" := by
  unfold sliceStatus
  rw [getField_objSet_self]

lemma sliceStatus_objSet_other (s : List (String × JSVal)) (k : String) (v : JSVal)
    (j : String) (h : j ≠ k) :
    sliceStatus (objSet s k v) j = sliceStatus s j := by
  unfold sliceStatus
  rw [getField_objSet_other _ _ _ _ h]

/-! ## Claim C1: step characterizations -/

lemma step_start_eq (M : Model) (c : Config) (k : String) (input : JSVal)
    (hk : k ∈ M.keys) :
    step M c (.start k input) = some ⟨dispatchSlice M (requestType k) input c.slice,
      notifyAll M (requestType k) input
        (dispatchSlice M (requestType k) input c.slice) c.phases⟩ := by
  simp only [step]
  rw [if_pos hk]

lemma step_start_none (M : Model) (c : Config) (k : String) (input : JSVal)
    (hk : k ∉ M.keys) :
    step M c (.start k input) = none := by
  simp only [step]
  rw [if_neg hk]

lemma step_finish_ok (M : Model) (c : Config) (k : String) (input v : JSVal)
    (h : lookupPhase c k = some (.running input)) :
    step M c (.finish k (.ok v)) =
      some ⟨dispatchSlice M (successType k)
              (.obj [("response", v), ("request", input)]) c.slice,
            notifyAll M (successType k) (.obj [("response", v), ("request", input)])
              (dispatchSlice M (successType k)
                (.obj [("response", v), ("request", input)]) c.slice)
              (c.phases.map (fun jp => (jp.1, if jp.1 = k then Phase.idle else jp.2)))⟩ := by
  simp only [step]
  rw [h]

lemma step_finish_err (M : Model) (c : Config) (k : String) (input e : JSVal)
    (h : lookupPhase c k = some (.running input)) :
    step M c (.finish k (.error e)) =
      some ⟨dispatchSlice M (failureType k)
              (.obj [("error", e), ("request", input)]) c.slice,
            notifyAll M (failureType k) (.obj [("error", e), ("request", input)])
              (dispatchSlice M (failureType k)
                (.obj [("error", e), ("request", input)]) c.slice)
              (c.phases.map (fun jp => (jp.1, if jp.1 = k then Phase.idle else jp.2)))⟩ := by
  simp only [step]
  rw [h]

/-! ## Claim C1: the serialization invariant -/

lemma find?_of_mem_fst {β : Type} (phases : List (String × β)) (B : String)
    (h : B ∈ phases.map Prod.fst) :
    ∃ pB, phases.find? (fun p => p.1 = B) = some pB := by
  obtain ⟨p, hp, hpB⟩ := List.mem_map.mp h
  have hsome : (phases.find? (fun p => p.1 = B)).isSome :=
    List.find?_isSome.mpr ⟨p, hp, by simp [hpB]⟩
  exact Option.isSome_iff_exists.mp hsome

/-- The window invariant: `A` and `B` are both `FETCHING` in the status
table, `B`'s worker is suspended in its group-`take` with `A` among its
blockers, and the phase table covers exactly the registered keys. -/
def C1Inv (M : Model) (A B : String) (c : Config) : Prop :=
  sliceStatus c.slice A = .str STATE_FETCHING ∧
  sliceStatus c.slice B = .str STATE_FETCHING ∧
  (∃ i bs, lookupPhase c B = some (.waiting i bs) ∧ (JSVal.str A) ∈ bs) ∧
  c.phases.map Prod.fst = M.keys

lemma c1_inv_finish_common (M : Model) (A B G : String)
    (hAB : A ≠ B) (hA0 : A ≠ "")
    (hgA : getField (getField M.registry A) "group" = .str G)
    (hgB : getField (getField M.registry B) "group" = .str G)
    (hG : G ≠ "")
    (c : Config)
    (hA2 : sliceStatus c.slice A = .str STATE_FETCHING)
    (hB2 : sliceStatus c.slice B = .str STATE_FETCHING)
    (i : JSVal) (bs : List JSVal) (hAbs : (JSVal.str A) ∈ bs)
    (pB : String × Phase) (hfind : c.phases.find? (fun p => p.1 = B) = some pB)
    (hfst : pB.1 = B) (hsnd : pB.2 = .waiting i bs)
    (hdom : c.phases.map Prod.fst = M.keys)
    (k type : String) (pl : JSVal) (hkA : A ≠ k) (hkB : B ≠ k)
    (entry : JSVal) (hdisp : dispatchSlice M type pl c.slice = objSet c.slice k entry)
    (hreqne : requestType B ≠ type) :
    C1Inv M A B ⟨dispatchSlice M type pl c.slice,
      notifyAll M type pl (dispatchSlice M type pl c.slice)
        (c.phases.map (fun jp => (jp.1, if jp.1 = k then Phase.idle else jp.2)))⟩ := by
  have hA3 : sliceStatus (dispatchSlice M type pl c.slice) A = .str STATE_FETCHING := by
    rw [hdisp, sliceStatus_objSet_other _ _ _ _ hkA]
    exact hA2
  have hB3 : sliceStatus (dispatchSlice M type pl c.slice) B = .str STATE_FETCHING := by
    rw [hdisp, sliceStatus_objSet_other _ _ _ _ hkB]
    exact hB2
  refine ⟨hA3, hB3, ?_, ?_⟩
  · have hfind1 : (c.phases.map (fun jp => (jp.1, if jp.1 = k then Phase.idle else jp.2))).find?
        (fun p => p.1 = B) = some (pB.1, if pB.1 = k then Phase.idle else pB.2) := by
      rw [find?_map_keyed, hfind, Option.map_some']
    rw [hfst, hsnd, if_neg hkB] at hfind1
    have hfind' : (notifyAll M type pl (dispatchSlice M type pl c.slice)
          (c.phases.map (fun jp => (jp.1, if jp.1 = k then Phase.idle else jp.2)))).find?
        (fun p => p.1 = B)
        = some (B, notifyPhase M type pl (dispatchSlice M type pl c.slice) B (.waiting i bs)) := by
      unfold notifyAll
      rw [find?_map_keyed, hfind1, Option.map_some']
    have hred : notifyPhase M type pl (dispatchSlice M type pl c.slice) B (.waiting i bs)
        = (if type ∈ getFinishedActions bs
           then wake M B i (dispatchSlice M type pl c.slice)
           else Phase.waiting i bs) := by
      unfold notifyPhase
      rw [if_neg hreqne]
    by_cases hin : type ∈ getFinishedActions bs
    · obtain ⟨bs', hw, hmem⟩ := wake_waiting_of_blocker M B i _ G hG hgB A
        (mem_of_sliceStatus_str _ _ _ hA3) hA3 hgA hA0 hAB
      exact ⟨i, bs', by rw [lookupPhase_mk, hfind', Option.map_some', hred, if_pos hin, hw],
        hmem⟩
    · exact ⟨i, bs, by rw [lookupPhase_mk, hfind', Option.map_some', hred, if_neg hin], hAbs⟩
  · show (notifyAll M type pl _ _).map Prod.fst = M.keys
    unfold notifyAll
    rw [map_fst_keyed, map_fst_keyed]
    exact hdom

lemma c1_inv_preserved (M : Model) (A B G : String)
    (hN : M.keys.Nodup)
    (hU : ∀ k1 ∈ M.keys, ∀ k2 ∈ M.keys, jsToUpperCase k1 = jsToUpperCase k2 → k1 = k2)
    (hB : B ∈ M.keys) (hAB : A ≠ B) (hA0 : A ≠ "")
    (hgA : getField (getField M.registry A) "group" = .str G)
    (hgB : getField (getField M.registry B) "group" = .str G)
    (hG : G ≠ "")
    (c c' : Config) (hinv : C1Inv M A B c) (e : Event)
    (heA : ∀ out, e ≠ Event.finish A out)
    (hstep : step M c e = some c') : C1Inv M A B c' := by
  obtain ⟨hA2, hB2, ⟨i, bs, hBph, hAbs⟩, hdom⟩ := hinv
  obtain ⟨pB, hfind, hfst, hsnd⟩ := lookupPhase_some_inv c B _ hBph
  cases e with
  | start k input =>
    by_cases hk : k ∈ M.keys
    · rw [step_start_eq M c k input hk] at hstep
      obtain rfl := Option.some.inj hstep
      have hdisp : dispatchSlice M (requestType k) input c.slice = requestHandler k c.slice :=
        dispatchSlice_request M hN hU k hk input c.slice
      have hA3 : sliceStatus (dispatchSlice M (requestType k) input c.slice) A
          = .str STATE_FETCHING := by
        rw [hdisp]
        unfold requestHandler
        by_cases hkA : A = k
        · subst hkA
          rw [sliceStatus_objSet_self]
          rfl
        · rw [sliceStatus_objSet_other _ _ _ _ hkA]
          exact hA2
      have hB3 : sliceStatus (dispatchSlice M (requestType k) input c.slice) B
          = .str STATE_FETCHING := by
        rw [hdisp]
        unfold requestHandler
        by_cases hkB : B = k
        · subst hkB
          rw [sliceStatus_objSet_self]
          rfl
        · rw [sliceStatus_objSet_other _ _ _ _ hkB]
          exact hB2
      refine ⟨hA3, hB3, ?_, ?_⟩
      · have hfind' : (notifyAll M (requestType k) input
              (dispatchSlice M (requestType k) input c.slice) c.phases).find?
            (fun p => p.1 = B)
            = some (B, notifyPhase M (requestType k) input
                (dispatchSlice M (requestType k) input c.slice) B (.waiting i bs)) := by
          unfold notifyAll
          rw [find?_map_keyed, hfind, Option.map_some', hfst, hsnd]
        by_cases hkB : k = B
        · have hnp : notifyPhase M (requestType k) input
              (dispatchSlice M (requestType k) input c.slice) B (.waiting i bs)
              = wake M B input (dispatchSlice M (requestType k) input c.slice) := by
            unfold notifyPhase
            rw [if_pos (by rw [hkB])]
          obtain ⟨bs', hw, hmem⟩ := wake_waiting_of_blocker M B input _ G hG hgB A
            (mem_of_sliceStatus_str _ _ _ hA3) hA3 hgA hA0 hAB
          exact ⟨input, bs', by rw [lookupPhase_mk, hfind', Option.map_some', hnp, hw], hmem⟩
        · have hreqne : requestType B ≠ requestType k := fun h =>
            hkB ((hU B hB k hk (requestType_inj B k h)).symm)
          have hred : notifyPhase M (requestType k) input
              (dispatchSlice M (requestType k) input c.slice) B (.waiting i bs)
              = (if requestType k ∈ getFinishedActions bs
                 then wake M B i (dispatchSlice M (requestType k) input c.slice)
                 else Phase.waiting i bs) := by
            unfold notifyPhase
            rw [if_neg hreqne]
          exact ⟨i, bs, by
            rw [lookupPhase_mk, hfind', Option.map_some', hred,
              if_neg (requestType_not_finished k bs)], hAbs⟩
      · show (notifyAll M (requestType k) input _ _).map Prod.fst = M.keys
        unfold notifyAll
        rw [map_fst_keyed]
        exact hdom
    · rw [step_start_none M c k input hk] at hstep
      exact Option.noConfusion hstep
  | finish k outcome =>
    have hkA : k ≠ A := fun h => heA outcome (by rw [h])
    cases hl : lookupPhase c k with
    | none =>
      simp only [step] at hstep
      rw [hl] at hstep
      exact Option.noConfusion hstep
    | some ph =>
      cases ph with
      | idle =>
        simp only [step] at hstep
        rw [hl] at hstep
        exact Option.noConfusion hstep
      | waiting wi wbs =>
        simp only [step] at hstep
        rw [hl] at hstep
        exact Option.noConfusion hstep
      | running input =>
        have hkB : k ≠ B := by
          intro h
          rw [h, hBph] at hl
          exact Phase.noConfusion (Option.some.inj hl)
        have hkKeys : k ∈ M.keys := hdom ▸ mem_keys_of_lookupPhase c k _ hl
        cases outcome with
        | ok v =>
          rw [step_finish_ok M c k input v hl] at hstep
          obtain rfl := Option.some.inj hstep
          exact c1_inv_finish_common M A B G hAB hA0 hgA hgB hG c hA2 hB2 i bs hAbs
            pB hfind hfst hsnd hdom k (successType k)
            (.obj [("response", v), ("request", input)]) (Ne.symm hkA) (Ne.symm hkB)
            (successEntry (.obj [("response", v), ("request", input)]))
            (dispatchSlice_success M hN hU k hkKeys _ c.slice)
            (fun h => requestType_ne_successType B k h)
        | error err =>
          rw [step_finish_err M c k input err hl] at hstep
          obtain rfl := Option.some.inj hstep
          exact c1_inv_finish_common M A B G hAB hA0 hgA hgB hG c hA2 hB2 i bs hAbs
            pB hfind hfst hsnd hdom k (failureType k)
            (.obj [("error", err), ("request", input)]) (Ne.symm hkA) (Ne.symm hkB)
            (failureEntry (.obj [("error", err), ("request", input)]))
            (dispatchSlice_failure M hN hU k hkKeys _ c.slice)
            (fun h => requestType_ne_failureType B k h)

lemma c1_inv_start (M : Model) (A B G : String)
    (hN : M.keys.Nodup)
    (hU : ∀ k1 ∈ M.keys, ∀ k2 ∈ M.keys, jsToUpperCase k1 = jsToUpperCase k2 → k1 = k2)
    (hB : B ∈ M.keys) (hAB : A ≠ B) (hA0 : A ≠ "")
    (hgA : getField (getField M.registry A) "group" = .str G)
    (hgB : getField (getField M.registry B) "group" = .str G)
    (hG : G ≠ "")
    (c₀ : Config) (hdom : c₀.phases.map Prod.fst = M.keys)
    (hAfetch : sliceStatus c₀.slice A = .str STATE_FETCHING)
    (inpB : JSVal) (c₁ : Config)
    (h₁ : step M c₀ (.start B inpB) = some c₁) : C1Inv M A B c₁ := by
  rw [step_start_eq M c₀ B inpB hB] at h₁
  obtain rfl := Option.some.inj h₁
  have hdisp : dispatchSlice M (requestType B) inpB c₀.slice = requestHandler B c₀.slice :=
    dispatchSlice_request M hN hU B hB inpB c₀.slice
  have hA3 : sliceStatus (dispatchSlice M (requestType B) inpB c₀.slice) A
      = .str STATE_FETCHING := by
    rw [hdisp]
    unfold requestHandler
    rw [sliceStatus_objSet_other _ _ _ _ hAB]
    exact hAfetch
  have hB3 : sliceStatus (dispatchSlice M (requestType B) inpB c₀.slice) B
      = .str STATE_FETCHING := by
    rw [hdisp]
    unfold requestHandler
    rw [sliceStatus_objSet_self]
    rfl
  have hBmem : B ∈ c₀.phases.map Prod.fst := by
    rw [hdom]
    exact hB
  obtain ⟨pB, hfind⟩ := find?_of_mem_fst c₀.phases B hBmem
  have hfst := find?_fst_eq _ _ _ hfind
  have hfind' : (notifyAll M (requestType B) inpB
        (dispatchSlice M (requestType B) inpB c₀.slice) c₀.phases).find?
      (fun p => p.1 = B)
      = some (B, notifyPhase M (requestType B) inpB
          (dispatchSlice M (requestType B) inpB c₀.slice) B pB.2) := by
    unfold notifyAll
    rw [find?_map_keyed, hfind, Option.map_some', hfst]
  have hnp : notifyPhase M (requestType B) inpB
      (dispatchSlice M (requestType B) inpB c₀.slice) B pB.2
      = wake M B inpB (dispatchSlice M (requestType B) inpB c₀.slice) := by
    unfold notifyPhase
    rw [if_pos rfl]
  obtain ⟨bs', hw, hmem⟩ := wake_waiting_of_blocker M B inpB _ G hG hgB A
    (mem_of_sliceStatus_str _ _ _ hA3) hA3 hgA hA0 hAB
  refine ⟨hA3, hB3, ⟨inpB, bs', ?_, hmem⟩, ?_⟩
  · rw [lookupPhase_mk, hfind', Option.map_some', hnp, hw]
  · show (notifyAll M (requestType B) inpB _ _).map Prod.fst = M.keys
    unfold notifyAll
    rw [map_fst_keyed]
    exact hdom

lemma c1_inv_run (M : Model) (A B G : String)
    (hN : M.keys.Nodup)
    (hU : ∀ k1 ∈ M.keys, ∀ k2 ∈ M.keys, jsToUpperCase k1 = jsToUpperCase k2 → k1 = k2)
    (hB : B ∈ M.keys) (hAB : A ≠ B) (hA0 : A ≠ "")
    (hgA : getField (getField M.registry A) "group" = .str G)
    (hgB : getField (getField M.registry B) "group" = .str G)
    (hG : G ≠ "")
    (T : List Event) :
    ∀ c : Config, C1Inv M A B c → (∀ out, Event.finish A out ∉ T) →
    ∀ c', T.foldlM (step M) c = some c' → C1Inv M A B c' := by
  induction T with
  | nil =>
    intro c hinv hT c' hrun
    rw [List.foldlM_nil] at hrun
    exact (Option.some.inj hrun) ▸ hinv
  | cons e t ih =>
    intro c hinv hT c' hrun
    rw [List.foldlM_cons] at hrun
    cases hs : step M c e with
    | none =>
      rw [hs] at hrun
      exact Option.noConfusion hrun
    | some c1 =>
      rw [hs] at hrun
      have he : ∀ out, e ≠ Event.finish A out := by
        intro out h
        exact hT out (h ▸ List.mem_cons_self e t)
      exact ih c1
        (c1_inv_preserved M A B G hN hU hB hAB hA0 hgA hgB hG c c1 hinv e he hs)
        (fun out ho => hT out (List.mem_cons_of_mem _ ho)) c' hrun

lemma c1_finish_A_common (M : Model) (A B G : String)
    (hN : M.keys.Nodup)
    (hU : ∀ k1 ∈ M.keys, ∀ k2 ∈ M.keys, jsToUpperCase k1 = jsToUpperCase k2 → k1 = k2)
    (hB : B ∈ M.keys) (hAB : A ≠ B)
    (hgB : getField (getField M.registry B) "group" = .str G)
    (hG : G ≠ "")
    (c₂ : Config)
    (hB2 : sliceStatus c₂.slice B = .str STATE_FETCHING)
    (i : JSVal) (bs : List JSVal) (hAbs : (JSVal.str A) ∈ bs)
    (pB : String × Phase) (hfind : c₂.phases.find? (fun p => p.1 = B) = some pB)
    (hfst : pB.1 = B) (hsnd : pB.2 = .waiting i bs)
    (hno : ∀ k ∈ c₂.slice.map Prod.fst, k ≠ A → k ≠ B →
      ¬(sliceStatus c₂.slice k = .str STATE_FETCHING ∧
        getField (getField M.registry k) "group" = .str G))
    (type : String) (pl : JSVal)
    (entry : JSVal) (hdisp : dispatchSlice M type pl c₂.slice = objSet c₂.slice A entry)
    (hstatus : getField entry "status" = .str STATE_SUCCESS ∨
      getField entry "status" = .str STATE_FAILURE)
    (hreqne : requestType B ≠ type)
    (hin : type ∈ getFinishedActions bs) :
    (sliceStatus (dispatchSlice M type pl c₂.slice) A = .str STATE_SUCCESS ∨
      sliceStatus (dispatchSlice M type pl c₂.slice) A = .str STATE_FAILURE) ∧
    (∃ j, lookupPhase ⟨dispatchSlice M type pl c₂.slice,
        notifyAll M type pl (dispatchSlice M type pl c₂.slice)
          (c₂.phases.map (fun jp => (jp.1, if jp.1 = A then Phase.idle else jp.2)))⟩ B
      = some (.running j)) := by
  have hAterm : sliceStatus (dispatchSlice M type pl c₂.slice) A = getField entry "status" := by
    rw [hdisp, sliceStatus_objSet_self]
  constructor
  · rcases hstatus with h | h
    · exact Or.inl (hAterm.trans h)
    · exact Or.inr (hAterm.trans h)
  · have hfind1 : (c₂.phases.map (fun jp => (jp.1, if jp.1 = A then Phase.idle else jp.2))).find?
        (fun p => p.1 = B) = some (pB.1, if pB.1 = A then Phase.idle else pB.2) := by
      rw [find?_map_keyed, hfind, Option.map_some']
    rw [hfst, hsnd, if_neg (Ne.symm hAB)] at hfind1
    have hfind' : (notifyAll M type pl (dispatchSlice M type pl c₂.slice)
          (c₂.phases.map (fun jp => (jp.1, if jp.1 = A then Phase.idle else jp.2)))).find?
        (fun p => p.1 = B)
        = some (B, notifyPhase M type pl (dispatchSlice M type pl c₂.slice) B
            (.waiting i bs)) := by
      unfold notifyAll
      rw [find?_map_keyed, hfind1, Option.map_some']
    have hred : notifyPhase M type pl (dispatchSlice M type pl c₂.slice) B (.waiting i bs)
        = (if type ∈ getFinishedActions bs
           then wake M B i (dispatchSlice M type pl c₂.slice)
           else Phase.waiting i bs) := by
      unfold notifyPhase
      rw [if_neg hreqne]
    have hwake : wake M B i (dispatchSlice M type pl c₂.slice) = .running i := by
      apply wake_running_of_no_blockers M B i _ G hG hgB
      intro a ⟨ham, hst, hgr, h0, hne⟩
      by_cases haA : a = A
      · subst haA
        rw [hAterm.symm.trans hst] at hstatus
        rcases hstatus with h | h
        · injection h with hh
          exact absurd hh (by decide)
        · injection h with hh
          exact absurd hh (by decide)
      · have ham2 : a ∈ c₂.slice.map Prod.fst := by
          rw [hdisp] at ham
          rcases (mem_map_fst_objSet c₂.slice A entry a).mp ham with h | h
          · exact h
          · exact absurd h haA
        have hst2 : sliceStatus c₂.slice a = .str STATE_FETCHING := by
          rw [hdisp, sliceStatus_objSet_other _ _ _ _ haA] at hst
          exact hst
        exact hno a ham2 haA hne ⟨hst2, hgr⟩
    exact ⟨i, by rw [lookupPhase_mk, hfind', Option.map_some', hred, if_pos hin, hwake]⟩

lemma c1_finish_B_terminal (M : Model) (B : String)
    (hN : M.keys.Nodup)
    (hU : ∀ k1 ∈ M.keys, ∀ k2 ∈ M.keys, jsToUpperCase k1 = jsToUpperCase k2 → k1 = k2)
    (hB : B ∈ M.keys) (c₃ : Config) (j : JSVal)
    (hBrun : lookupPhase c₃ B = some (.running j)) (outB : Except JSVal JSVal) :
    ∃ c₄, step M c₃ (.finish B outB) = some c₄ ∧
      (sliceStatus c₄.slice B = .str STATE_SUCCESS ∨
       sliceStatus c₄.slice B = .str STATE_FAILURE) := by
  cases outB with
  | ok v =>
    refine ⟨_, step_finish_ok M c₃ B j v hBrun, Or.inl ?_⟩
    show sliceStatus (dispatchSlice M (successType B)
      (.obj [("response", v), ("request", j)]) c₃.slice) B = .str STATE_SUCCESS
    rw [dispatchSlice_success M hN hU B hB _ c₃.slice]
    unfold successHandler
    rw [sliceStatus_objSet_self]
    rfl
  | error e =>
    refine ⟨_, step_finish_err M c₃ B j e hBrun, Or.inr ?_⟩
    show sliceStatus (dispatchSlice M (failureType B)
      (.obj [("error", e), ("request", j)]) c₃.slice) B = .str STATE_FAILURE
    rw [dispatchSlice_failure M hN hU B hB _ c₃.slice]
    unfold failureHandler
    rw [sliceStatus_objSet_self]
    rfl

/-! ## Claim C1: counterexample and main theorem -/

/-- C1, counterexample: two registered keys `a`, `b` *sharing group `""`*.
`a` starts first and is still `FETCHING` when `b` starts, yet `b` runs
immediately (the falsy group bypasses the coordinator) and reaches
`SUCCESS` while `a` is still `FETCHING` — contradicting the claim that
`b` must not reach a terminal status until `a` does. -/
theorem group_serialization_empty_group_cex :
    (run ⟨[("a", .obj [("fetcher", .fn 0), ("group", .str "")]),
           ("b", .obj [("fetcher", .fn 1), ("group", .str "")])]⟩
        [.start "a" (.num 1), .start "b" (.num 2), .finish "b" (.ok (.num 3))]).map
      (fun c => (sliceStatus c.slice "a", sliceStatus c.slice "b"))
      = some (.str STATE_FETCHING, .str STATE_SUCCESS) ∧
    getField (getField (Model.registry ⟨[("a", .obj [("fetcher", .fn 0), ("group", .str "")]),
           ("b", .obj [("fetcher", .fn 1), ("group", .str "")])]⟩) "a") "group" = .str "" ∧
    getField (getField (Model.registry ⟨[("a", .obj [("fetcher", .fn 0), ("group", .str "")]),
           ("b", .obj [("fetcher", .fn 1), ("group", .str "")])]⟩) "b") "group" = .str "" :=
  ⟨rfl, rfl, rfl⟩

/-- C1, amended: consider two registered keys `A ≠ B` whose descriptors
share a *non-empty* group `G`, in a registry whose keys are distinct even
after uppercasing (so the per-key action types do not collide), with
`A ≠ ""` (an empty-string key is dropped from every blocker list).  If
`A` is `FETCHING` when `B`'s request starts, then after any further
events in which `A`'s fetch does not complete, both `A` and `B` are still
`FETCHING` — in particular `B` has reached neither `SUCCESS` nor
`FAILURE`.  Moreover, if at that point `A`'s cycle is in its fetch and no
third key of group `G` is `FETCHING`, then completing `A`'s fetch puts
`A` in a terminal status and resumes `B`'s worker into its fetch
(`running`), and completing `B`'s fetch then puts `B` in a terminal
status.  (Liveness is relative to the fetches completing — a fetch that
never resolves blocks its group forever — and to no third group member
queuing, which can dead-lock the remaining waiters.) -/
theorem group_serialization (M : Model) (A B G : String)
    (hN : M.keys.Nodup)
    (hU : ∀ k1 ∈ M.keys, ∀ k2 ∈ M.keys, jsToUpperCase k1 = jsToUpperCase k2 → k1 = k2)
    (hA : A ∈ M.keys) (hB : B ∈ M.keys) (hAB : A ≠ B) (hA0 : A ≠ "")
    (hgA : getField (getField M.registry A) "group" = .str G)
    (hgB : getField (getField M.registry B) "group" = .str G)
    (hG : G ≠ "")
    (c₀ : Config) (hdom : c₀.phases.map Prod.fst = M.keys)
    (hAfetch : sliceStatus c₀.slice A = .str STATE_FETCHING)
    (inpB : JSVal) (c₁ : Config) (h₁ : step M c₀ (.start B inpB) = some c₁)
    (T : List Event) (hT : ∀ out, Event.finish A out ∉ T)
    (c₂ : Config) (hrun : T.foldlM (step M) c₁ = some c₂) :
    sliceStatus c₂.slice B = .str STATE_FETCHING ∧
    sliceStatus c₂.slice A = .str STATE_FETCHING ∧
    (∀ inpA, lookupPhase c₂ A = some (.running inpA) →
      (∀ k ∈ c₂.slice.map Prod.fst, k ≠ A → k ≠ B →
        ¬(sliceStatus c₂.slice k = .str STATE_FETCHING ∧
          getField (getField M.registry k) "group" = .str G)) →
      ∀ out, ∃ c₃, step M c₂ (.finish A out) = some c₃ ∧
        (sliceStatus c₃.slice A = .str STATE_SUCCESS ∨
         sliceStatus c₃.slice A = .str STATE_FAILURE) ∧
        (∃ j, lookupPhase c₃ B = some (.running j)) ∧
        (∀ outB, ∃ c₄, step M c₃ (.finish B outB) = some c₄ ∧
          (sliceStatus c₄.slice B = .str STATE_SUCCESS ∨
           sliceStatus c₄.slice B = .str STATE_FAILURE))) := by
  have hinv₂ : C1Inv M A B c₂ :=
    c1_inv_run M A B G hN hU hB hAB hA0 hgA hgB hG T c₁
      (c1_inv_start M A B G hN hU hB hAB hA0 hgA hgB hG c₀ hdom hAfetch inpB c₁ h₁)
      hT c₂ hrun
  obtain ⟨hA2, hB2, ⟨i, bs, hBph, hAbs⟩, hdom₂⟩ := hinv₂
  refine ⟨hB2, hA2, ?_⟩
  intro inpA hArun hno out
  obtain ⟨pB, hfind, hfst, hsnd⟩ := lookupPhase_some_inv c₂ B _ hBph
  have hAkeys : A ∈ M.keys := hA
  cases out with
  | ok v =>
    have hdisp : dispatchSlice M (successType A)
        (.obj [("response", v), ("request", inpA)]) c₂.slice
        = objSet c₂.slice A (successEntry (.obj [("response", v), ("request", inpA)])) :=
      dispatchSlice_success M hN hU A hAkeys _ c₂.slice
    obtain ⟨hterm, j, hBrun⟩ := c1_finish_A_common M A B G hN hU hB hAB hgB hG c₂
      hB2 i bs hAbs pB hfind hfst hsnd hno (successType A)
      (.obj [("response", v), ("request", inpA)]) _ hdisp
      (Or.inl (getField_successEntry_status _))
      (fun h => requestType_ne_successType B A h)
      (successType_mem_finished A bs hAbs)
    refine ⟨_, step_finish_ok M c₂ A inpA v hArun, hterm, ⟨j, hBrun⟩, ?_⟩
    intro outB
    exact c1_finish_B_terminal M B hN hU hB _ j hBrun outB
  | error e =>
    have hdisp : dispatchSlice M (failureType A)
        (.obj [("error", e), ("request", inpA)]) c₂.slice
        = objSet c₂.slice A (failureEntry (.obj [("error", e), ("request", inpA)])) :=
      dispatchSlice_failure M hN hU A hAkeys _ c₂.slice
    obtain ⟨hterm, j, hBrun⟩ := c1_finish_A_common M A B G hN hU hB hAB hgB hG c₂
      hB2 i bs hAbs pB hfind hfst hsnd hno (failureType A)
      (.obj [("error", e), ("request", inpA)]) _ hdisp
      (Or.inr (getField_failureEntry_status _))
      (fun h => requestType_ne_failureType B A h)
      (failureType_mem_finished A bs hAbs)
    refine ⟨_, step_finish_err M c₂ A inpA e hArun, hterm, ⟨j, hBrun⟩, ?_⟩
    intro outB
    exact c1_finish_B_terminal M B hN hU hB _ j hBrun outB

/-- Concrete registry for the C1 witness: keys `a`, `b` sharing group `g`. -/
def c1wM : Model :=
  ⟨[("a", .obj [("fetcher", .fn 0), ("group", .str "g")]),
    ("b", .obj [("fetcher", .fn 1), ("group", .str "g")])]⟩

/-- Configuration after `start a` (worker `a` fetching). -/
def c1wC0 : Config :=
  ⟨[("a", requestEntry)], [("a", .running (.num 1)), ("b", .idle)]⟩

/-- Configuration after `start a; start b` (worker `b` queued behind `a`). -/
def c1wC1 : Config :=
  ⟨[("a", requestEntry), ("b", requestEntry)],
   [("a", .running (.num 1)), ("b", .waiting (.num 2) [.str "a"])]⟩

/-- Witness for the amended C1 on the two-key group `g`. -/
theorem group_serialization_witness :
    sliceStatus c1wC1.slice "b" = .str STATE_FETCHING ∧
    sliceStatus c1wC1.slice "a" = .str STATE_FETCHING ∧
    (∀ inpA, lookupPhase c1wC1 "a" = some (.running inpA) →
      (∀ k ∈ c1wC1.slice.map Prod.fst, k ≠ "a" → k ≠ "b" →
        ¬(sliceStatus c1wC1.slice k = .str STATE_FETCHING ∧
          getField (getField c1wM.registry k) "group" = .str "g")) →
      ∀ out, ∃ c₃, step c1wM c1wC1 (.finish "a" out) = some c₃ ∧
        (sliceStatus c₃.slice "a" = .str STATE_SUCCESS ∨
         sliceStatus c₃.slice "a" = .str STATE_FAILURE) ∧
        (∃ j, lookupPhase c₃ "b" = some (.running j)) ∧
        (∀ outB, ∃ c₄, step c1wM c₃ (.finish "b" outB) = some c₄ ∧
          (sliceStatus c₄.slice "b" = .str STATE_SUCCESS ∨
           sliceStatus c₄.slice "b" = .str STATE_FAILURE))) :=
  group_serialization c1wM "a" "b" "g" (by decide) (by decide) (by decide) (by decide)
    (by decide) (by decide) rfl rfl (by decide) c1wC0 rfl rfl (.num 2) c1wC1 rfl
    [] (by intro out h; cases h) c1wC1 rfl

end ReduxSagaFetch
